import Mathlib

/-!
# A linear volume over a JBOD array: address translation and block cache

Shallow embedding of `src/mdadm.c` (session flags, `get_loc`, the prechecks,
`mdadm_read`, `mdadm_write`), `src/cache.c` (the block cache) and the part of
`src/net.c` that the volume driver calls (`get_command`,
`jbod_client_operation`).

Conventions of the embedding.

* `uint32_t` values are natural numbers; every place where the C arithmetic can
  wrap is reduced with `u32` (mod 2^32), the `uint16_t` running offset with
  mod 2^16.
* `uint8_t` buffers are functions from the byte index to the byte value; a
  pointer argument that may be `NULL` is an `Option`.
* The process-wide globals of the three files are the fields of `State`; every
  operation takes the state and returns the new one next to its C result.
* A `while` loop is a structurally recursive function whose first argument is
  the number of iterations the C loop can still perform.
-/

namespace Mdadm

/-! ## Constants of `jbod.h` -/

/-- Modelled from the spec: `jbod.h` is not among the sources; number of disks
D of the array (the opcode built in `mdadm.c` keeps the disk index in the four
bits 8..11). -/
def JBOD_NUM_DISKS : Nat := 16

/-- Modelled from the spec: `jbod.h` is not among the sources; block size K in
bytes (`net.c` sends a block as packet bytes 5..260). -/
def JBOD_BLOCK_SIZE : Nat := 256

/-- Modelled from the spec: `jbod.h` is not among the sources; blocks per disk
B (the opcode keeps the block index in the eight bits 0..7). -/
def JBOD_NUM_BLOCKS_PER_DISK : Nat := 256

/-- Modelled from the spec: disk size S = B * K bytes. -/
def JBOD_DISK_SIZE : Nat := 65536

/-- Modelled from the spec: command numbers of `jbod_cmd_t`, in the order the
transport contract lists them (`mdadm.c` notes MOUNT = 0 and UNMOUNT = 1). -/
def JBOD_MOUNT : Nat := 0
def JBOD_UNMOUNT : Nat := 1
def JBOD_SEEK_TO_DISK : Nat := 2
def JBOD_SEEK_TO_BLOCK : Nat := 3
def JBOD_READ_BLOCK : Nat := 4
def JBOD_WRITE_BLOCK : Nat := 5
def JBOD_WRITE_PERMISSION : Nat := 6
def JBOD_REVOKE_WRITE_PERMISSION : Nat := 7

/-- Error codes of `jbod_error_t` used by `get_loc` (its comment gives 0, 7, 8). -/
def JBOD_NO_ERROR : Int := 0
def JBOD_BAD_DISK_NUM : Int := 7
def JBOD_BAD_BLOCK_NUM : Int := 8

/-! ## Machine arithmetic and memory -/

/-- Reduction of a natural number to `uint32_t`. -/
def u32 (n : Nat) : Nat := n % 4294967296

/-- A block buffer `uint8_t[JBOD_BLOCK_SIZE]`: byte index to byte value. -/
abbrev Block := Nat → Nat

/-- A caller buffer: byte index to byte value. -/
abbrev Buf := Nat → Nat

/-- The C call `memcpy(dst + doff, src + soff, n)`. -/
def memcpy (dst : Nat → Nat) (doff : Nat) (src : Nat → Nat) (soff : Nat) (n : Nat) : Nat → Nat :=
  fun i => if doff ≤ i ∧ i < doff + n then src (soff + (i - doff)) else dst i

/-- Contents given to a block buffer that C leaves uninitialised (the local
`temp_buf`); every path that reads it after a successful fetch has overwritten
all of its K bytes. -/
def zero_block : Block := fun _ => 0

/-! ## The remote array behind the socket -/

/-- The remote JBOD server: whether it answers commands with success, the
stored bytes by disk, block and byte index, its current disk and block, and
the opcodes received so far (oldest first). -/
structure Jbod where
  up : Bool
  store : Nat → Nat → Block
  cur_disk : Nat
  cur_block : Nat
  trace : List Nat

/-- Retrieve the command field, bits 12..17, of a 32-bit opcode (`net.c`). -/
def get_command (op : Nat) : Nat := (op &&& 258048) >>> 12

/-- Modelled from the spec: the remote server is not among the sources. It
records the opcode, and answers with the echoed opcode, an info code (bit 0:
the operation failed, bit 1: a block follows) and the block if any. A server
that is not `up` fails every command; an unknown command fails. Seek-to-disk
takes the disk from bits 8..11 and rewinds the block, seek-to-block takes the
block from bits 0..7, read-block and write-block act on the current block and
advance it. -/
def jbod_server (j : Jbod) (op : Nat) (block : Option Block) : Jbod × Nat × Nat × Option Block :=
  let j1 : Jbod := { j with trace := j.trace ++ [op] }
  if j1.up = false then (j1, op, 1, none)
  else
    let cmd := get_command op
    if cmd = JBOD_SEEK_TO_DISK then
      ({ j1 with cur_disk := (op >>> 8) &&& 15, cur_block := 0 }, op, 0, none)
    else if cmd = JBOD_SEEK_TO_BLOCK then
      ({ j1 with cur_block := op &&& 255 }, op, 0, none)
    else if cmd = JBOD_READ_BLOCK then
      ({ j1 with cur_block := j1.cur_block + 1 }, op, 2, some (j1.store j1.cur_disk j1.cur_block))
    else if cmd = JBOD_WRITE_BLOCK then
      match block with
      | none => (j1, op, 1, none)
      | some b =>
        ({ j1 with
            store := fun d k =>
              if d = j1.cur_disk ∧ k = j1.cur_block then memcpy (j1.store d k) 0 b 0 JBOD_BLOCK_SIZE
              else j1.store d k,
            cur_block := j1.cur_block + 1 }, op, 0, none)
    else if cmd = JBOD_MOUNT ∨ cmd = JBOD_UNMOUNT ∨ cmd = JBOD_WRITE_PERMISSION
        ∨ cmd = JBOD_REVOKE_WRITE_PERMISSION then
      (j1, op, 0, none)
    else (j1, op, 1, none)

/-- The function `jbod_client_operation` of `net.c`: send the request, receive
the response; a payload (info code 2 or 3) is stored into `block`; the result
is 0 when the response echoes the opcode with the failure bit clear, else -1.
The byte stream itself always delivers (`nread` and `nwrite` succeed). -/
def jbod_client_operation (j : Jbod) (op : Nat) (block : Option Block) : Int × Jbod × Option Block :=
  let r := jbod_server j op block
  let recv_op := r.2.1
  let ret := r.2.2.1
  let block1 : Option Block :=
    if ret = 2 ∨ ret = 3 then
      match block, r.2.2.2 with
      | some b, some payload => some (memcpy b 0 payload 0 JBOD_BLOCK_SIZE)
      | _, _ => block
    else block
  if recv_op = op then
    if ret = 1 ∨ ret = 3 then (-1, r.1, block1) else (0, r.1, block1)
  else (-1, r.1, block1)

/-! ## Global state -/

/-- The type `cache_entry_t` of `cache.h`. -/
structure cache_entry_t where
  valid : Bool
  disk_num : Int
  block_num : Int
  block : Block
  num_accesses : Nat

/-- The globals: `is_mounted`, `is_written` (`mdadm.c`); `cache` (`none` is the
`NULL` pointer, `some c` an allocation whose `cache_size` entries are the
elements of `c`), `num_queries`, `num_hits` (`cache.c`); and the remote array
reached through `cli_sd`. -/
structure State where
  is_mounted : Int
  is_written : Int
  cache : Option (List cache_entry_t)
  num_queries : Int
  num_hits : Int
  jbod : Jbod

/-- The global `cache_size`: the number of allocated entries, 0 when there is
no allocation (`cache_create` sets it with the allocation, `cache_destroy`
clears it with the release). -/
def cache_size (st : State) : Nat :=
  match st.cache with
  | none => 0
  | some c => c.length

/-- One entry as `calloc` leaves it. -/
def calloc_entry : cache_entry_t :=
  { valid := false, disk_num := 0, block_num := 0, block := fun _ => 0, num_accesses := 0 }

/-- State of a freshly started process talking to an array with the given
contents. -/
def init_state (store : Nat → Nat → Block) : State :=
  { is_mounted := 0, is_written := 0, cache := none, num_queries := 0, num_hits := 0,
    jbod := { up := true, store := store, cur_disk := 0, cur_block := 0, trace := [] } }

/-! ## `cache.c` -/

def cache_create (st : State) (num_entries : Int) : Int × State :=
  if st.cache.isSome then (-1, st)
  else if num_entries ≥ 2 ∧ num_entries ≤ 4096 then
    (1, { st with cache := some (List.replicate num_entries.toNat calloc_entry),
                  num_queries := 0, num_hits := 0 })
  else (-1, st)

def cache_destroy (st : State) : Int × State :=
  if st.cache.isNone then (-1, st)
  else (1, { st with cache := none })

def lookup_precheck (st : State) (disk_num block_num : Int) (buf : Option Block) : Int :=
  match st.cache with
  | none => -1
  | some c =>
    if (c.headD calloc_entry).valid = false then -1
    else if buf.isNone then -1
    else if disk_num < 0 ∨ disk_num ≥ JBOD_NUM_DISKS then -1
    else if block_num < 0 ∨ block_num ≥ JBOD_BLOCK_SIZE then -1
    else 1

/-- The duplicate scan of `insert_precheck`: some entry has the key and is valid. -/
def has_valid_key (disk_num block_num : Int) : List cache_entry_t → Bool
  | [] => false
  | p :: rest =>
    if p.disk_num = disk_num ∧ p.block_num = block_num ∧ p.valid = true then true
    else has_valid_key disk_num block_num rest

def insert_precheck (st : State) (disk_num block_num : Int) (buf : Option Block) : Int :=
  match st.cache with
  | none => -1
  | some c =>
    if buf.isNone then -1
    else if disk_num < 0 ∨ disk_num ≥ JBOD_NUM_DISKS then -1
    else if block_num < 0 ∨ block_num ≥ JBOD_BLOCK_SIZE then -1
    else if has_valid_key disk_num block_num c then -1
    else 1

/-- The scan of `cache_lookup` from entry `p` on: at the first entry whose key
matches (its `valid` flag is not looked at) the block is copied out and the
access count raised; `none` when the scan reaches the end. -/
def lookup_scan (disk_num block_num : Int) (buf : Block) :
    List cache_entry_t → Option (Block × List cache_entry_t)
  | [] => none
  | p :: rest =>
    if p.disk_num = disk_num ∧ p.block_num = block_num then
      some (memcpy buf 0 p.block 0 JBOD_BLOCK_SIZE,
            { p with num_accesses := p.num_accesses + 1 } :: rest)
    else
      match lookup_scan disk_num block_num buf rest with
      | none => none
      | some r => some (r.1, p :: r.2)

def cache_lookup (st : State) (disk_num block_num : Int) (buf : Option Block) :
    Int × State × Option Block :=
  if lookup_precheck st disk_num block_num buf = -1 then (-1, st, buf)
  else
    match st.cache, buf with
    | some c, some b =>
      match lookup_scan disk_num block_num b c with
      | some r =>
        (1, { st with cache := some r.2, num_hits := st.num_hits + 1,
                      num_queries := st.num_queries + 1 }, some r.1)
      | none => (-1, { st with num_queries := st.num_queries + 1 }, buf)
    | _, _ => (-1, st, buf)

/-- The scan of `cache_update` from entry `p` on. -/
def update_scan (disk_num block_num : Int) (buf : Block) : List cache_entry_t → List cache_entry_t
  | [] => []
  | p :: rest =>
    if p.disk_num = disk_num ∧ p.block_num = block_num then
      { p with block := memcpy p.block 0 buf 0 JBOD_BLOCK_SIZE,
               num_accesses := p.num_accesses + 1 } :: rest
    else p :: update_scan disk_num block_num buf rest

def cache_update (st : State) (disk_num block_num : Int) (buf : Block) : State :=
  match st.cache with
  | none => st
  | some c => { st with cache := some (update_scan disk_num block_num buf c) }

/-- The assignments that fill an entry in `cache_insert`. -/
def fill_entry (p : cache_entry_t) (disk_num block_num : Int) (buf : Block) : cache_entry_t :=
  { valid := true, disk_num := disk_num, block_num := block_num,
    block := memcpy p.block 0 buf 0 JBOD_BLOCK_SIZE, num_accesses := 1 }

/-- The scan of `cache_insert` from entry number `i` on, with the running
`freq` and the index `overwrite` of the eviction candidate: `Sum.inl` is the
rest of the array after an empty entry was filled (the function returns
there), `Sum.inr` the candidate once the scan reaches the end. -/
def insert_scan (disk_num block_num : Int) (buf : Block) :
    List cache_entry_t → Nat → Int → Nat → List cache_entry_t ⊕ Nat
  | [], _, _, overwrite => Sum.inr overwrite
  | p :: rest, i, freq, overwrite =>
    if p.valid = false then Sum.inl (fill_entry p disk_num block_num buf :: rest)
    else
      let freq1 : Int := if freq > (p.num_accesses : Int) then (p.num_accesses : Int) else freq
      let overwrite1 : Nat := if freq > (p.num_accesses : Int) then i else overwrite
      match insert_scan disk_num block_num buf rest (i + 1) freq1 overwrite1 with
      | Sum.inl rest1 => Sum.inl (p :: rest1)
      | Sum.inr o => Sum.inr o

def cache_insert (st : State) (disk_num block_num : Int) (buf : Option Block) : Int × State :=
  if insert_precheck st disk_num block_num buf = -1 then (-1, st)
  else
    match st.cache, buf with
    | some c, some b =>
      match insert_scan disk_num block_num b c 0 0 0 with
      | Sum.inl c1 => (1, { st with cache := some c1 })
      | Sum.inr o =>
        let c1 := c.set o (fill_entry (c.getD o calloc_entry) disk_num block_num b)
        (1, { st with cache := some c1 })
    | _, _ => (-1, st)

def cache_enabled (st : State) : Bool :=
  st.cache.isSome && decide (cache_size st > 0)

/-! ## `mdadm.c`: session flags -/

def mdadm_mount (st : State) : Int × State :=
  if st.is_mounted = 1 then (-1, st)
  else
    let op := u32 (JBOD_MOUNT <<< 12)
    let r := jbod_client_operation st.jbod op none
    if r.1 = JBOD_NO_ERROR then (1, { st with is_mounted := 1, jbod := r.2.1 })
    else (-1, { st with jbod := r.2.1 })

def mdadm_unmount (st : State) : Int × State :=
  if st.is_mounted = 0 then (-1, st)
  else
    let op := u32 (JBOD_UNMOUNT <<< 12)
    let r := jbod_client_operation st.jbod op none
    if r.1 = JBOD_NO_ERROR then (1, { st with is_mounted := 0, jbod := r.2.1 })
    else (-1, { st with jbod := r.2.1 })

def mdadm_write_permission (st : State) : Int × State :=
  if st.is_written = 1 then (-1, st)
  else
    let op := u32 (JBOD_WRITE_PERMISSION <<< 12)
    let r := jbod_client_operation st.jbod op none
    if r.1 = JBOD_NO_ERROR then (0, { st with is_written := 1, jbod := r.2.1 })
    else (-1, { st with jbod := r.2.1 })

def mdadm_revoke_write_permission (st : State) : Int × State :=
  if st.is_written = 0 then (-1, st)
  else
    let op := u32 (JBOD_REVOKE_WRITE_PERMISSION <<< 12)
    let r := jbod_client_operation st.jbod op none
    if r.1 = JBOD_NO_ERROR then (0, { st with is_written := 0, jbod := r.2.1 })
    else (-1, { st with jbod := r.2.1 })

/-! ## `mdadm.c`: address translation -/

/-- The function `get_loc`: result code, `*disk_id`, `*block_id`. The two
quotients of a `uint32_t` are below 2^16, so storing them in an `int` and back
changes nothing. -/
def get_loc (addr : Nat) : Int × Nat × Nat :=
  let d_id : Nat := addr / JBOD_DISK_SIZE
  let b_id : Nat := (addr % JBOD_DISK_SIZE) / JBOD_BLOCK_SIZE
  if 0 ≤ d_id ∧ d_id < JBOD_NUM_DISKS then
    if 0 ≤ b_id ∧ b_id < JBOD_NUM_BLOCKS_PER_DISK then (JBOD_NO_ERROR, d_id, b_id)
    else (JBOD_BAD_BLOCK_NUM, d_id, b_id)
  else (JBOD_BAD_DISK_NUM, d_id, b_id)

def read_precheck (st : State) (start_addr read_len : Nat) (read_buf : Option Buf) : Int :=
  if st.is_mounted = 0 then -1
  else if read_len > 2048 then -1
  else if read_buf.isNone then (if read_len = 0 then 0 else -1)
  else if u32 (start_addr + read_len) ≤ JBOD_DISK_SIZE * JBOD_NUM_DISKS then 0
  else if (get_loc (u32 (start_addr + read_len))).1 ≠ JBOD_NO_ERROR then -1
  else 0

def write_precheck (st : State) (start_addr write_len : Nat) (write_buf : Option Buf) : Int :=
  if st.is_mounted = 0 then -1
  else if st.is_written = 0 then -1
  else if write_len > 2048 then -1
  else if write_buf.isNone then (if write_len = 0 then 0 else -1)
  else if u32 (start_addr + write_len) ≤ JBOD_DISK_SIZE * JBOD_NUM_DISKS then 0
  else if (get_loc (u32 (start_addr + write_len))).1 ≠ JBOD_NO_ERROR then -1
  else 0

/-- The locals both transfer functions compute before their loops: disk, block
and intra-block index of the first address and of the last one. -/
structure Span where
  sdisk_id : Nat
  sblock_id : Nat
  srem_bytes : Nat
  ldisk_id : Nat
  lblock_id : Nat
  lrem_bytes : Nat

/-- The value `addr + len - 1` in `uint32_t` arithmetic. -/
def last_addr (addr len : Nat) : Nat := u32 (u32 (addr + len) + 4294967295)

def span_of (addr len : Nat) : Span :=
  { sdisk_id := (get_loc addr).2.1,
    sblock_id := (get_loc addr).2.2,
    srem_bytes := (addr % JBOD_DISK_SIZE) % JBOD_BLOCK_SIZE,
    ldisk_id := (get_loc (last_addr addr len)).2.1,
    lblock_id := (get_loc (last_addr addr len)).2.2,
    lrem_bytes := ((last_addr addr len) % JBOD_DISK_SIZE) % JBOD_BLOCK_SIZE }

/-- What the loops carry: the globals, the caller buffer and the running
`uint16_t offset`. -/
structure Loop where
  st : State
  buf : Buf
  offset : Nat

/-- The `int start_cpy` of `mdadm_read` (`start_backup` in `mdadm_write`). -/
def start_cpy (sp : Span) (current_disk current_block : Nat) : Int :=
  if current_disk = sp.sdisk_id ∧ current_block = sp.sblock_id then (sp.srem_bytes : Int) else 0

/-- The `int end_cpy` of `mdadm_read` (`end_backup` in `mdadm_write`). -/
def end_cpy (sp : Span) (current_disk current_block : Nat) : Int :=
  if current_disk = sp.ldisk_id ∧ current_block = sp.lblock_id then (sp.lrem_bytes : Int)
  else (JBOD_BLOCK_SIZE : Int) - 1

/-- The statement `offset += end - start + 1` on the `uint16_t offset`. -/
def advance (sp : Span) (current_disk current_block : Nat) (offset : Nat) : Nat :=
  (((offset : Int) + (end_cpy sp current_disk current_block
      - start_cpy sp current_disk current_block + 1)) % 65536).toNat

/-- The byte count `end - start + 1` handed to `memcpy`. -/
def sub_len (sp : Span) (current_disk current_block : Nat) : Nat :=
  (end_cpy sp current_disk current_block - start_cpy sp current_disk current_block + 1).toNat

def op_seek_to_disk (current_disk : Nat) : Nat :=
  u32 (u32 (JBOD_SEEK_TO_DISK <<< 12) ||| u32 (current_disk <<< 8))

def op_seek_to_block (current_block : Nat) : Nat :=
  u32 (u32 (JBOD_SEEK_TO_BLOCK <<< 12) ||| current_block)

def op_read_block : Nat := u32 (JBOD_READ_BLOCK <<< 12)

def op_write_block : Nat := u32 (JBOD_WRITE_BLOCK <<< 12)

/-- One transport call made from a loop; its result code is not looked at. -/
def issue (st : State) (op : Nat) (block : Option Block) : State × Option Block :=
  let r := jbod_client_operation st.jbod op block
  ({ st with jbod := r.2.1 }, r.2.2)

/-- The seek at the head of the disk loop of both transfer functions. -/
def seek_disk (current_disk : Nat) (x : Loop) : Loop :=
  { x with st := (issue x.st (op_seek_to_disk current_disk) none).1 }

/-- The `memcpy` into the caller buffer and the advance of `offset` that end
every block iteration of `mdadm_read`. -/
def copy_out (sp : Span) (current_disk current_block : Nat) (temp_buf : Block) (x : Loop) : Loop :=
  { x with
    buf := memcpy x.buf x.offset temp_buf (start_cpy sp current_disk current_block).toNat
             (sub_len sp current_disk current_block),
    offset := advance sp current_disk current_block x.offset }

/-- Body of the block loop of `mdadm_read`. -/
def read_block (sp : Span) (current_disk current_block : Nat) (x : Loop) : Loop :=
  if cache_enabled x.st then
    let r := cache_lookup x.st (current_disk : Int) (current_block : Int) (some zero_block)
    if r.1 = 1 then
      copy_out sp current_disk current_block (r.2.2.getD zero_block) { x with st := r.2.1 }
    else
      let s1 := issue r.2.1 (op_seek_to_block current_block) none
      let s2 := issue s1.1 op_read_block r.2.2
      let temp_buf := s2.2.getD zero_block
      let s3 := cache_insert s2.1 (current_disk : Int) (current_block : Int) (some temp_buf)
      copy_out sp current_disk current_block temp_buf { x with st := s3.2 }
  else
    let s1 := issue x.st (op_seek_to_block current_block) none
    let s2 := issue s1.1 op_read_block (some zero_block)
    copy_out sp current_disk current_block (s2.2.getD zero_block) { x with st := s2.1 }

/-- Body of the block loop of `mdadm_write`; `x.buf` is the caller's data. -/
def write_block (sp : Span) (current_disk current_block : Nat) (x : Loop) : Loop :=
  let s1 := issue x.st (op_seek_to_block current_block) none
  let s2 := issue s1.1 op_read_block (some zero_block)
  let temp_buf : Block :=
    memcpy (s2.2.getD zero_block) (start_cpy sp current_disk current_block).toNat x.buf x.offset
      (sub_len sp current_disk current_block)
  let s3 := issue s2.1 (op_seek_to_disk current_disk) none
  let s4 := issue s3.1 (op_seek_to_block current_block) none
  let s5 := issue s4.1 op_write_block (some temp_buf)
  let st6 : State :=
    if cache_enabled s5.1 then
      let r := cache_lookup s5.1 (current_disk : Int) (current_block : Int) (some temp_buf)
      if r.1 = 1 then
        cache_update r.2.1 (current_disk : Int) (current_block : Int) (r.2.2.getD zero_block)
      else
        (cache_insert r.2.1 (current_disk : Int) (current_block : Int) r.2.2).2
    else s5.1
  { x with st := st6, offset := advance sp current_disk current_block x.offset }

/-- The block loop `while (current_block <= bound) { body; ++current_block; }`. -/
def block_loop (body : Nat → Loop → Loop) : Nat → Nat → Nat → Loop → Loop
  | 0, _, _, x => x
  | fuel + 1, current_block, bound, x =>
    if current_block ≤ bound then
      block_loop body fuel (current_block + 1) bound (body current_block x)
    else x

/-- The disk loop `while (current_disk <= ldisk_id)`: seek to the disk, run the
block loop up to `lblock_id` on the last disk and to the last block of the disk
otherwise, then `current_block = 0; ++current_disk`. -/
def disk_loop (body : Nat → Nat → Loop → Loop) (ldisk_id lblock_id : Nat) :
    Nat → Nat → Nat → Loop → Loop
  | 0, _, _, x => x
  | fuel + 1, current_disk, current_block, x =>
    if current_disk ≤ ldisk_id then
      let bound := if current_disk = ldisk_id then lblock_id else JBOD_NUM_BLOCKS_PER_DISK - 1
      let x1 := seek_disk current_disk x
      let x2 := block_loop (body current_disk) (bound + 1 - current_block) current_block bound x1
      disk_loop body ldisk_id lblock_id fuel (current_disk + 1) 0 x2
    else x

def mdadm_read (st : State) (addr len : Nat) (buf : Option Buf) : Int × State × Option Buf :=
  if read_precheck st addr len buf = JBOD_NO_ERROR then
    if len = 0 then (0, st, buf)
    else
      match buf with
      | none => (-1, st, buf)
      | some b =>
        let sp := span_of addr len
        let x := disk_loop (read_block sp) sp.ldisk_id sp.lblock_id
          (sp.ldisk_id + 1 - sp.sdisk_id) sp.sdisk_id sp.sblock_id
          { st := st, buf := b, offset := 0 }
        ((x.offset : Int), x.st, some x.buf)
  else (-1, st, buf)

def mdadm_write (st : State) (addr len : Nat) (buf : Option Buf) : Int × State :=
  if write_precheck st addr len buf = JBOD_NO_ERROR then
    if len = 0 then (0, st)
    else
      match buf with
      | none => (-1, st)
      | some b =>
        let sp := span_of addr len
        let x := disk_loop (write_block sp) sp.ldisk_id sp.lblock_id
          (sp.ldisk_id + 1 - sp.sdisk_id) sp.sdisk_id sp.sblock_id
          { st := st, buf := b, offset := 0 }
        ((x.offset : Int), x.st)
  else (-1, st)

/-- The linear index `k` of a block is performed as one step: the disk seek
when `k` is the first block of the transfer or of its disk, then the loop body
on disk `k / B`, block `k mod B`. -/
def lin_step (body : Nat → Nat → Loop → Loop) (first : Nat) (x : Loop) (k : Nat) : Loop :=
  body (k / JBOD_NUM_BLOCKS_PER_DISK) (k % JBOD_NUM_BLOCKS_PER_DISK)
    (if k = first ∨ k % JBOD_NUM_BLOCKS_PER_DISK = 0 then seek_disk (k / JBOD_NUM_BLOCKS_PER_DISK) x
     else x)

/-- The commands a cache-less `mdadm_read` issues for the block of linear
index `k`: the disk seek when `k` is the first block of the transfer or of its
disk, then the block seek and the read. -/
def read_ops (first k : Nat) : List Nat :=
  (if k = first ∨ k % JBOD_NUM_BLOCKS_PER_DISK = 0 then
      [op_seek_to_disk (k / JBOD_NUM_BLOCKS_PER_DISK)]
    else [])
  ++ [op_seek_to_block (k % JBOD_NUM_BLOCKS_PER_DISK), op_read_block]

/-- The touched blocks of the range `[addr, addr + len)` in increasing linear
order, each with the commands of `read_ops`. -/
def read_trace (addr len : Nat) : List Nat :=
  (List.range' (addr / JBOD_BLOCK_SIZE)
      ((addr + len - 1) / JBOD_BLOCK_SIZE + 1 - addr / JBOD_BLOCK_SIZE)).flatMap
    (read_ops (addr / JBOD_BLOCK_SIZE))

/-- What holds before block `k` of a cache-less `mdadm_read` of `[addr, addr + len)`
started in `st` with caller buffer `b`: globals and stored bytes untouched, the
offset counts the bytes before block `k`, those bytes of the buffer are the
stored ones, the rest of the buffer is as the caller left it, the server
stands on the disk of block `k`, and the commands so far are those of the
blocks before `k`. -/
def ReadInv (st : State) (b : Buf) (addr len : Nat) (k : Nat) (x : Loop) : Prop :=
  x.st.is_mounted = st.is_mounted ∧ x.st.is_written = st.is_written ∧ x.st.cache = st.cache
  ∧ x.st.num_queries = st.num_queries ∧ x.st.num_hits = st.num_hits
  ∧ x.st.jbod.up = true ∧ x.st.jbod.store = st.jbod.store
  ∧ x.offset = min (k * 256) (addr + len) - addr
  ∧ (∀ i, i < x.offset →
      x.buf i = st.jbod.store ((addr + i) / 65536) ((addr + i) % 65536 / 256) ((addr + i) % 256))
  ∧ (∀ i, x.offset ≤ i → x.buf i = b i)
  ∧ (¬ (k = addr / 256 ∨ k % 256 = 0) → x.st.jbod.cur_disk = k / 256)
  ∧ x.st.jbod.trace
      = st.jbod.trace ++ (List.range' (addr / 256) (k - addr / 256)).flatMap (read_ops (addr / 256))

/-- The commands `mdadm_write` issues for the block of linear index `k`: the
disk seek when `k` is the first block of the transfer or of its disk, then block
seek and read, and disk seek, block seek and write. -/
def write_ops (first k : Nat) : List Nat :=
  (if k = first ∨ k % JBOD_NUM_BLOCKS_PER_DISK = 0 then
      [op_seek_to_disk (k / JBOD_NUM_BLOCKS_PER_DISK)]
    else [])
  ++ [op_seek_to_block (k % JBOD_NUM_BLOCKS_PER_DISK), op_read_block,
      op_seek_to_disk (k / JBOD_NUM_BLOCKS_PER_DISK),
      op_seek_to_block (k % JBOD_NUM_BLOCKS_PER_DISK), op_write_block]

/-- The touched blocks of the range in increasing linear order, each with the
commands of `write_ops`. -/
def write_trace (addr len : Nat) : List Nat :=
  (List.range' (addr / JBOD_BLOCK_SIZE)
      ((addr + len - 1) / JBOD_BLOCK_SIZE + 1 - addr / JBOD_BLOCK_SIZE)).flatMap
    (write_ops (addr / JBOD_BLOCK_SIZE))

/-- What holds before block `k` of a cache-less `mdadm_write` of `[addr, addr + len)`
started in `st` with data `b`: globals untouched, the offset counts the bytes
before block `k`, exactly those bytes of the array hold the data, the server
stands on the disk of block `k`, and the commands so far are those of the
blocks before `k`. -/
def WriteInv (st : State) (b : Buf) (addr len : Nat) (k : Nat) (x : Loop) : Prop :=
  x.st.is_mounted = st.is_mounted ∧ x.st.is_written = st.is_written ∧ x.st.cache = st.cache
  ∧ x.st.num_queries = st.num_queries ∧ x.st.num_hits = st.num_hits
  ∧ x.st.jbod.up = true ∧ x.buf = b
  ∧ x.offset = min (k * 256) (addr + len) - addr
  ∧ (∀ d c j, x.st.jbod.store d c j =
      if c < 256 ∧ j < 256 ∧ addr ≤ d * 65536 + c * 256 + j
          ∧ d * 65536 + c * 256 + j < addr + x.offset then
        b (d * 65536 + c * 256 + j - addr)
      else st.jbod.store d c j)
  ∧ (¬ (k = addr / 256 ∨ k % 256 = 0) → x.st.jbod.cur_disk = k / 256)
  ∧ x.st.jbod.trace
      = st.jbod.trace ++ (List.range' (addr / 256) (k - addr / 256)).flatMap (write_ops (addr / 256))

/-! ## Cache invariants and reachable cache states -/

/-- Valid flag and key of an entry. -/
def tag (p : cache_entry_t) : Bool × Int × Int := (p.valid, p.disk_num, p.block_num)

/-- No two valid entries of the array have the same (disk, block) key. -/
def no_dup_keys (c : List cache_entry_t) : Prop :=
  c.Pairwise (fun p q => p.valid = true → q.valid = true →
    ¬ (p.disk_num = q.disk_num ∧ p.block_num = q.block_num))

/-- Every entry in front of a valid entry is valid. -/
def valid_front (c : List cache_entry_t) : Prop :=
  c.Pairwise (fun p q => q.valid = true → p.valid = true)

/-- The states reached from a successful `cache_create` by any sequence of
`cache_lookup`, `cache_insert` and `cache_update` calls, whatever their
arguments and results. -/
inductive cache_reachable : State → Prop
  | create (st : State) (n : Int) :
      (cache_create st n).1 = 1 → cache_reachable (cache_create st n).2
  | lookup (st : State) (d b : Int) (buf : Option Block) :
      cache_reachable st → cache_reachable (cache_lookup st d b buf).2.1
  | insert (st : State) (d b : Int) (buf : Option Block) :
      cache_reachable st → cache_reachable (cache_insert st d b buf).2
  | update (st : State) (d b : Int) (buf : Block) :
      cache_reachable st → cache_reachable (cache_update st d b buf)

/-- Two loop states agree on everything the transport sees and on the
caller-side data. -/
def same_io (x y : Loop) : Prop :=
  x.st.jbod = y.st.jbod ∧ x.buf = y.buf ∧ x.offset = y.offset

/-- The loop state of a transfer of `[addr, addr + len)` when the iteration of
the block of linear index `k` begins: the iterations of the touched blocks
before `k` have run, in linear order, from the initial loop state `x0`. -/
def before_block (body : Nat → Nat → Loop → Loop) (addr k : Nat) (x0 : Loop) : Loop :=
  List.foldl (lin_step body (addr / JBOD_BLOCK_SIZE)) x0
    (List.range' (addr / JBOD_BLOCK_SIZE) (k - addr / JBOD_BLOCK_SIZE))

/-- Every unoccupied entry of the array still has the zero key fields left by
the allocation. -/
def free_keys_zero (c : List cache_entry_t) : Prop :=
  ∀ p ∈ c, p.valid = false → p.disk_num = 0 ∧ p.block_num = 0

/-! ## Concrete scenarios -/

/-- A fresh process in front of an array whose every byte is 7. -/
def demo_start : State := init_state (fun _ _ _ => 7)

/-- After `cache_create(2)`, `mdadm_mount()` and `mdadm_write_permission()`. -/
def demo_ready : State :=
  (mdadm_write_permission (mdadm_mount (cache_create demo_start 2).2).2).2

/-- After then writing the one byte 1 at address 0. -/
def demo_once : State := (mdadm_write demo_ready 0 1 (some fun _ => 1)).2

/-- After then writing the one byte 2 at address 0. -/
def demo_twice : State := (mdadm_write demo_once 0 1 (some fun _ => 2)).2

/-- A cache of two entries filled with the blocks (0, 0) and (0, 1). -/
def lfu_two : State :=
  (cache_insert (cache_insert (cache_create demo_start 2).2 0 0 (some fun _ => 10)).2 0 1
    (some fun _ => 11)).2

/-- After then looking up block (0, 0) once: access counts 2 and 1. -/
def lfu_used : State := (cache_lookup lfu_two 0 0 (some zero_block)).2.1

/-- After then inserting block (0, 2) into the full cache. -/
def lfu_third : State := (cache_insert lfu_used 0 2 (some fun _ => 12)).2

/-- The entry number `i` of the cache. -/
def entry (st : State) (i : Nat) : cache_entry_t := (st.cache.getD []).getD i calloc_entry

/-- A cache of two entries holding block (1, 1) only. -/
def one_cached : State := (cache_insert (cache_create demo_start 2).2 1 1 (some fun _ => 9)).2

/-- The session of `demo_ready` in front of a server that fails every command. -/
def demo_down : State :=
  { demo_ready with jbod := { demo_ready.jbod with up := false } }

/-! ## Theorems -/

/-! ### The loop counters never cut a loop short -/

theorem block_loop_fuel (body : Nat → Loop → Loop) (bound : Nat) :
    ∀ (fuel cb : Nat) (x : Loop), bound + 1 - cb ≤ fuel →
      block_loop body fuel cb bound x = block_loop body (bound + 1 - cb) cb bound x := by
  intro fuel
  induction fuel with
  | zero =>
    intro cb x h
    have e : bound + 1 - cb = 0 := by omega
    rw [e]
  | succ fuel ih =>
    intro cb x h
    by_cases hc : cb ≤ bound
    · have e : bound + 1 - cb = (bound + 1 - (cb + 1)) + 1 := by omega
      rw [e, block_loop, block_loop, if_pos hc, if_pos hc]
      exact ih (cb + 1) _ (by omega)
    · have e : bound + 1 - cb = 0 := by omega
      rw [e, block_loop, block_loop, if_neg hc]

theorem disk_loop_fuel (body : Nat → Nat → Loop → Loop) (ldisk lblock : Nat) :
    ∀ (fuel cd cb : Nat) (x : Loop), ldisk + 1 - cd ≤ fuel →
      disk_loop body ldisk lblock fuel cd cb x
        = disk_loop body ldisk lblock (ldisk + 1 - cd) cd cb x := by
  intro fuel
  induction fuel with
  | zero =>
    intro cd cb x h
    have e : ldisk + 1 - cd = 0 := by omega
    rw [e]
  | succ fuel ih =>
    intro cd cb x h
    by_cases hc : cd ≤ ldisk
    · have e : ldisk + 1 - cd = (ldisk + 1 - (cd + 1)) + 1 := by omega
      rw [e, disk_loop, disk_loop, if_pos hc, if_pos hc]
      exact ih (cd + 1) 0 _ (by omega)
    · have e : ldisk + 1 - cd = 0 := by omega
      rw [e, disk_loop, disk_loop, if_neg hc]

/-! ### Loops as folds over the touched blocks in linear order -/

theorem foldl_range_inv {α : Type} (f : α → Nat → α) (I : Nat → α → Prop) :
    ∀ (n s : Nat) (x : α), I s x →
      (∀ k y, s ≤ k → k < s + n → I k y → I (k + 1) (f y k)) →
      I (s + n) (List.foldl f x (List.range' s n)) := by
  intro n
  induction n with
  | zero => intro s x h _; simpa using h
  | succ n ih =>
    intro s x h hstep
    rw [List.range'_succ, List.foldl_cons]
    have h1 := ih (s + 1) (f x s) (hstep s x (Nat.le_refl s) (by omega) h)
      (fun k y hk1 hk2 hI => hstep k y (by omega) (by omega) hI)
    have e : s + 1 + n = s + (n + 1) := by omega
    rw [e] at h1
    exact h1

theorem block_loop_tail (body : Nat → Nat → Loop → Loop) (first cd bound : Nat) :
    ∀ (n c : Nat) (x : Loop), 1 ≤ c → c + n ≤ 256 → first < cd * 256 + c → bound + 1 = c + n →
      block_loop (body cd) n c bound x
        = List.foldl (lin_step body first) x (List.range' (cd * 256 + c) n) := by
  intro n
  induction n with
  | zero => intro c x _ _ _ _; simp [block_loop]
  | succ n ih =>
    intro c x h1 h2 h3 h4
    have hc : c ≤ bound := by omega
    rw [block_loop, if_pos hc, List.range'_succ, List.foldl_cons]
    have e1 : (cd * 256 + c) / 256 = cd := by omega
    have e2 : (cd * 256 + c) % 256 = c := by omega
    have e3 : ¬ (cd * 256 + c = first ∨ (cd * 256 + c) % 256 = 0) := by omega
    have e4 : lin_step body first x (cd * 256 + c) = body cd c x := by
      unfold lin_step
      simp only [JBOD_NUM_BLOCKS_PER_DISK]
      rw [if_neg e3, e1, e2]
    have e5 : cd * 256 + c + 1 = cd * 256 + (c + 1) := by omega
    rw [e4, e5, ih (c + 1) (body cd c x) (by omega) (by omega) (by omega) (by omega)]

theorem block_loop_seek (body : Nat → Nat → Loop → Loop) (first cd bound c : Nat) (x : Loop)
    (h1 : c ≤ bound) (h2 : bound ≤ 255) (h3 : first = cd * 256 + c ∨ c = 0)
    (h4 : first ≤ cd * 256 + c) :
    block_loop (body cd) (bound + 1 - c) c bound (seek_disk cd x)
      = List.foldl (lin_step body first) x (List.range' (cd * 256 + c) (bound + 1 - c)) := by
  obtain ⟨n, hn⟩ : ∃ n, bound + 1 - c = n + 1 := ⟨bound - c, by omega⟩
  rw [hn, block_loop, if_pos h1, List.range'_succ, List.foldl_cons]
  have e1 : (cd * 256 + c) / 256 = cd := by omega
  have e2 : (cd * 256 + c) % 256 = c := by omega
  have e3 : cd * 256 + c = first ∨ (cd * 256 + c) % 256 = 0 := by omega
  have e4 : lin_step body first x (cd * 256 + c) = body cd c (seek_disk cd x) := by
    unfold lin_step
    simp only [JBOD_NUM_BLOCKS_PER_DISK]
    rw [if_pos e3, e1, e2]
  have e5 : cd * 256 + c + 1 = cd * 256 + (c + 1) := by omega
  rw [e4, e5, block_loop_tail body first cd bound n (c + 1) _ (by omega) (by omega) (by omega)
    (by omega)]

theorem foldl_lin_step_first (body : Nat → Nat → Loop → Loop) (first first1 : Nat) :
    ∀ (n s : Nat) (x : Loop), first < s → first1 ≤ s → first1 % 256 = 0 →
      List.foldl (lin_step body first1) x (List.range' s n)
        = List.foldl (lin_step body first) x (List.range' s n) := by
  intro n
  induction n with
  | zero => intro s x _ _ _; simp
  | succ n ih =>
    intro s x h1 h2 h3
    rw [List.range'_succ, List.foldl_cons, List.foldl_cons]
    have e : lin_step body first1 x s = lin_step body first x s := by
      have c : (s = first1 ∨ s % JBOD_NUM_BLOCKS_PER_DISK = 0)
          ↔ (s = first ∨ s % JBOD_NUM_BLOCKS_PER_DISK = 0) := by
        simp only [JBOD_NUM_BLOCKS_PER_DISK]; omega
      simp only [lin_step, c]
    rw [e, ih (s + 1) _ (by omega) (by omega) h3]

theorem disk_loop_eq_foldl (body : Nat → Nat → Loop → Loop) (ldisk lblock : Nat)
    (hl : lblock ≤ 255) :
    ∀ (fuel cd cb : Nat) (x : Loop), fuel = ldisk + 1 - cd → cd ≤ ldisk → cb ≤ 255 →
      (cd = ldisk → cb ≤ lblock) →
      disk_loop body ldisk lblock fuel cd cb x
        = List.foldl (lin_step body (cd * 256 + cb)) x
            (List.range' (cd * 256 + cb) (ldisk * 256 + lblock + 1 - (cd * 256 + cb))) := by
  intro fuel
  induction fuel with
  | zero => intro cd cb x h1 h2 _ _; omega
  | succ fuel ih =>
    intro cd cb x h1 h2 h3 h4
    rw [disk_loop, if_pos h2]
    by_cases hcd : cd = ldisk
    · subst hcd
      have hf : fuel = 0 := by omega
      subst hf
      simp only [if_true, disk_loop]
      rw [block_loop_seek body (cd * 256 + cb) cd lblock cb x (h4 rfl) hl (Or.inl rfl)
        (Nat.le_refl _)]
      have e : cd * 256 + lblock + 1 - (cd * 256 + cb) = lblock + 1 - cb := by omega
      rw [e]
    · simp only [if_neg hcd, JBOD_NUM_BLOCKS_PER_DISK]
      rw [block_loop_seek body (cd * 256 + cb) cd 255 cb x (by omega) (by omega) (Or.inl rfl)
        (Nat.le_refl _)]
      rw [ih (cd + 1) 0 _ (by omega) (by omega) (by omega) (by omega)]
      have e : ldisk * 256 + lblock + 1 - (cd * 256 + cb)
          = (ldisk * 256 + lblock + 1 - ((cd + 1) * 256 + 0)) + (255 + 1 - cb) := by omega
      have e1 : (cd + 1) * 256 + 0 = cd * 256 + cb + (255 + 1 - cb) := by omega
      rw [e, ← List.range'_append_1, List.foldl_append, ← e1]
      exact foldl_lin_step_first body (cd * 256 + cb) ((cd + 1) * 256 + 0) _ _ _ (by omega)
        (by omega) (by omega)

/-! ### The span of a range inside the linear address space -/

theorem get_loc_disk (addr : Nat) : (get_loc addr).2.1 = addr / 65536 := by
  simp only [get_loc]
  split <;> [split; skip] <;> rfl

theorem get_loc_block (addr : Nat) : (get_loc addr).2.2 = addr % 65536 / 256 := by
  simp only [get_loc]
  split <;> [split; skip] <;> rfl

theorem last_addr_eq (addr len : Nat) (h1 : 1 ≤ len) (h3 : addr + len ≤ 1048576) :
    last_addr addr len = addr + len - 1 := by
  simp only [last_addr, u32]; omega

theorem span_of_eq (addr len : Nat) (h1 : 1 ≤ len) (h3 : addr + len ≤ 1048576) :
    span_of addr len =
      { sdisk_id := addr / 65536, sblock_id := addr % 65536 / 256, srem_bytes := addr % 256,
        ldisk_id := (addr + len - 1) / 65536, lblock_id := (addr + len - 1) % 65536 / 256,
        lrem_bytes := (addr + len - 1) % 256 } := by
  have e1 : addr % 65536 % 256 = addr % 256 := by omega
  have e2 : (addr + len - 1) % 65536 % 256 = (addr + len - 1) % 256 := by omega
  simp only [span_of, last_addr_eq addr len h1 h3, get_loc_disk, get_loc_block, JBOD_DISK_SIZE,
    JBOD_BLOCK_SIZE, e1, e2]

theorem block_index_first (addr k : Nat) :
    (k / 256 = addr / 65536 ∧ k % 256 = addr % 65536 / 256) ↔ k = addr / 256 := by omega

/-- After block `k` the running offset counts the bytes of the range that lie
before block `k + 1`. -/
theorem advance_eq (addr len k off : Nat) (h1 : 1 ≤ len) (h2 : len ≤ 2048)
    (h3 : addr + len ≤ 1048576) (hk1 : addr / 256 ≤ k) (hk2 : k ≤ (addr + len - 1) / 256)
    (hoff : off = min (k * 256) (addr + len) - addr) :
    advance (span_of addr len) (k / 256) (k % 256) off
      = min ((k + 1) * 256) (addr + len) - addr := by
  rw [span_of_eq addr len h1 h3]
  simp only [advance, start_cpy, end_cpy, JBOD_BLOCK_SIZE, block_index_first]
  by_cases hs : k = addr / 256 <;> by_cases he : k = (addr + len - 1) / 256
  · rw [if_pos hs, if_pos he]; omega
  · rw [if_pos hs, if_neg he]; omega
  · rw [if_neg hs, if_pos he]; omega
  · rw [if_neg hs, if_neg he]; omega

/-- The sub-range of block `k`: where it starts inside the block and how many
bytes it has. -/
theorem sub_range_eq (addr len k : Nat) (h1 : 1 ≤ len) (h2 : len ≤ 2048)
    (h3 : addr + len ≤ 1048576) (hk1 : addr / 256 ≤ k) (hk2 : k ≤ (addr + len - 1) / 256) :
    (start_cpy (span_of addr len) (k / 256) (k % 256)).toNat = max addr (k * 256) - k * 256
    ∧ sub_len (span_of addr len) (k / 256) (k % 256)
        = min ((k + 1) * 256) (addr + len) - max addr (k * 256) := by
  rw [span_of_eq addr len h1 h3]
  simp only [sub_len, start_cpy, end_cpy, JBOD_BLOCK_SIZE, block_index_first]
  by_cases hs : k = addr / 256 <;> by_cases he : k = (addr + len - 1) / 256
  · rw [if_pos hs, if_pos he]; omega
  · rw [if_pos hs, if_neg he]; omega
  · rw [if_neg hs, if_pos he]; omega
  · rw [if_neg hs, if_neg he]; omega

/-! ### The running offset -/

theorem seek_disk_offset (cd : Nat) (x : Loop) : (seek_disk cd x).offset = x.offset := rfl

theorem read_block_offset (sp : Span) (cd cb : Nat) (x : Loop) :
    (read_block sp cd cb x).offset = advance sp cd cb x.offset := by
  simp only [read_block]
  split
  · split <;> rfl
  · rfl

theorem write_block_offset (sp : Span) (cd cb : Nat) (x : Loop) :
    (write_block sp cd cb x).offset = advance sp cd cb x.offset := rfl

theorem lin_step_offset (body : Nat → Nat → Loop → Loop) (sp : Span)
    (hbody : ∀ cd cb x, (body cd cb x).offset = advance sp cd cb x.offset)
    (first k : Nat) (x : Loop) :
    (lin_step body first x k).offset = advance sp (k / 256) (k % 256) x.offset := by
  unfold lin_step
  rw [hbody]
  simp only [JBOD_NUM_BLOCKS_PER_DISK]
  split <;> rfl

/-- The disk loop of a transfer over a range inside the address space is the
fold of `lin_step` over the linear block indices of the range. -/
theorem transfer_eq_foldl (body : Nat → Nat → Loop → Loop) (addr len : Nat) (x : Loop)
    (h1 : 1 ≤ len) (h3 : addr + len ≤ 1048576) :
    disk_loop body (span_of addr len).ldisk_id (span_of addr len).lblock_id
        ((span_of addr len).ldisk_id + 1 - (span_of addr len).sdisk_id)
        (span_of addr len).sdisk_id (span_of addr len).sblock_id x
      = List.foldl (lin_step body (addr / 256)) x
          (List.range' (addr / 256) ((addr + len - 1) / 256 + 1 - addr / 256)) := by
  rw [span_of_eq addr len h1 h3]
  simp only
  rw [disk_loop_eq_foldl body _ _ (by omega) _ _ _ _ rfl (by omega) (by omega) (by omega)]
  have e1 : addr / 65536 * 256 + addr % 65536 / 256 = addr / 256 := by omega
  have e2 : (addr + len - 1) / 65536 * 256 + (addr + len - 1) % 65536 / 256
      = (addr + len - 1) / 256 := by omega
  rw [e1, e2]

theorem transfer_offset (body : Nat → Nat → Loop → Loop) (addr len : Nat) (x : Loop)
    (hbody : ∀ cd cb x, (body cd cb x).offset = advance (span_of addr len) cd cb x.offset)
    (h1 : 1 ≤ len) (h2 : len ≤ 2048) (h3 : addr + len ≤ 1048576) (hx : x.offset = 0) :
    (disk_loop body (span_of addr len).ldisk_id (span_of addr len).lblock_id
        ((span_of addr len).ldisk_id + 1 - (span_of addr len).sdisk_id)
        (span_of addr len).sdisk_id (span_of addr len).sblock_id x).offset = len := by
  rw [transfer_eq_foldl body addr len x h1 h3]
  have h := foldl_range_inv (lin_step body (addr / 256))
    (fun k y => y.offset = min (k * 256) (addr + len) - addr)
    ((addr + len - 1) / 256 + 1 - addr / 256) (addr / 256) x (by simp only; omega)
    (fun k y hk1 hk2 hI => by
      simp only
      rw [lin_step_offset body _ hbody]
      exact advance_eq addr len k y.offset h1 h2 h3 hk1 (by omega) hI)
  simp only at h
  rw [h]
  omega

theorem read_precheck_ok (st : State) (addr len : Nat) (b : Buf) (hm : st.is_mounted ≠ 0)
    (h2 : len ≤ 2048) (h3 : addr + len ≤ 1048576) :
    read_precheck st addr len (some b) = 0 := by
  have e : u32 (addr + len) ≤ JBOD_DISK_SIZE * JBOD_NUM_DISKS := by
    simp only [u32, JBOD_DISK_SIZE, JBOD_NUM_DISKS]; omega
  simp [read_precheck, hm, e]
  omega

theorem write_precheck_ok (st : State) (addr len : Nat) (b : Buf) (hm : st.is_mounted ≠ 0)
    (hw : st.is_written ≠ 0) (h2 : len ≤ 2048) (h3 : addr + len ≤ 1048576) :
    write_precheck st addr len (some b) = 0 := by
  have e : u32 (addr + len) ≤ JBOD_DISK_SIZE * JBOD_NUM_DISKS := by
    simp only [u32, JBOD_DISK_SIZE, JBOD_NUM_DISKS]; omega
  simp [write_precheck, hm, hw, e]
  omega

theorem mdadm_read_eq (st : State) (addr len : Nat) (b : Buf) (hm : st.is_mounted ≠ 0)
    (h1 : 1 ≤ len) (h2 : len ≤ 2048) (h3 : addr + len ≤ 1048576) :
    mdadm_read st addr len (some b) =
      (let x := List.foldl (lin_step (read_block (span_of addr len)) (addr / 256))
          { st := st, buf := b, offset := 0 }
          (List.range' (addr / 256) ((addr + len - 1) / 256 + 1 - addr / 256))
       ((x.offset : Int), x.st, some x.buf)) := by
  have hl : len ≠ 0 := by omega
  simp only [mdadm_read, read_precheck_ok st addr len b hm h2 h3, JBOD_NO_ERROR, if_true,
    if_neg hl]
  rw [transfer_eq_foldl _ addr len _ h1 h3]

theorem mdadm_write_eq (st : State) (addr len : Nat) (b : Buf) (hm : st.is_mounted ≠ 0)
    (hw : st.is_written ≠ 0)
    (h1 : 1 ≤ len) (h2 : len ≤ 2048) (h3 : addr + len ≤ 1048576) :
    mdadm_write st addr len (some b) =
      (let x := List.foldl (lin_step (write_block (span_of addr len)) (addr / 256))
          { st := st, buf := b, offset := 0 }
          (List.range' (addr / 256) ((addr + len - 1) / 256 + 1 - addr / 256))
       ((x.offset : Int), x.st)) := by
  have hl : len ≠ 0 := by omega
  simp only [mdadm_write, write_precheck_ok st addr len b hm hw h2 h3, JBOD_NO_ERROR, if_true,
    if_neg hl]
  rw [transfer_eq_foldl _ addr len _ h1 h3]

/-! ### Transport commands on a server that is up -/

theorem op_seek_to_disk_decode : ∀ cd, cd < 16 →
    get_command (op_seek_to_disk cd) = 2 ∧ (op_seek_to_disk cd >>> 8) &&& 15 = cd := by
  decide

set_option maxRecDepth 100000 in
theorem op_seek_to_block_decode : ∀ cb, cb < 256 →
    get_command (op_seek_to_block cb) = 3 ∧ op_seek_to_block cb &&& 255 = cb := by
  decide

theorem op_read_block_decode : get_command op_read_block = 4 := by decide
theorem op_write_block_decode : get_command op_write_block = 5 := by decide

theorem issue_seek_to_disk (st : State) (cd : Nat) (hup : st.jbod.up = true) (hcd : cd < 16) :
    issue st (op_seek_to_disk cd) none =
      ({ st with jbod := { st.jbod with trace := st.jbod.trace ++ [op_seek_to_disk cd],
                                        cur_disk := cd, cur_block := 0 } }, none) := by
  obtain ⟨e1, e2⟩ := op_seek_to_disk_decode cd hcd
  simp [issue, jbod_client_operation, jbod_server, hup, e1, e2, JBOD_SEEK_TO_DISK]

theorem issue_seek_to_block (st : State) (cb : Nat) (hup : st.jbod.up = true) (hcb : cb < 256) :
    issue st (op_seek_to_block cb) none =
      ({ st with jbod := { st.jbod with trace := st.jbod.trace ++ [op_seek_to_block cb],
                                        cur_block := cb } }, none) := by
  obtain ⟨e1, e2⟩ := op_seek_to_block_decode cb hcb
  simp [issue, jbod_client_operation, jbod_server, hup, e1, e2, JBOD_SEEK_TO_DISK,
    JBOD_SEEK_TO_BLOCK]

theorem issue_read_block (st : State) (t : Block) (hup : st.jbod.up = true) :
    issue st op_read_block (some t) =
      ({ st with jbod := { st.jbod with trace := st.jbod.trace ++ [op_read_block],
                                        cur_block := st.jbod.cur_block + 1 } },
       some (memcpy t 0 (st.jbod.store st.jbod.cur_disk st.jbod.cur_block) 0 JBOD_BLOCK_SIZE)) := by
  simp [issue, jbod_client_operation, jbod_server, hup, op_read_block_decode, JBOD_SEEK_TO_DISK,
    JBOD_SEEK_TO_BLOCK, JBOD_READ_BLOCK]

theorem issue_write_block (st : State) (t : Block) (hup : st.jbod.up = true) :
    issue st op_write_block (some t) =
      ({ st with jbod := { st.jbod with
            trace := st.jbod.trace ++ [op_write_block],
            store := fun d k =>
              if d = st.jbod.cur_disk ∧ k = st.jbod.cur_block then
                memcpy (st.jbod.store d k) 0 t 0 JBOD_BLOCK_SIZE
              else st.jbod.store d k,
            cur_block := st.jbod.cur_block + 1 } }, some t) := by
  simp [issue, jbod_client_operation, jbod_server, hup, op_write_block_decode, JBOD_SEEK_TO_DISK,
    JBOD_SEEK_TO_BLOCK, JBOD_READ_BLOCK, JBOD_WRITE_BLOCK]

/-! ### A read without cache -/

theorem fetch_block (st : State) (cb : Nat) (t : Block) (hup : st.jbod.up = true)
    (hcb : cb < 256) :
    issue (issue st (op_seek_to_block cb) none).1 op_read_block (some t) =
      ({ st with jbod := { st.jbod with
            trace := st.jbod.trace ++ [op_seek_to_block cb, op_read_block],
            cur_block := cb + 1 } },
       some (memcpy t 0 (st.jbod.store st.jbod.cur_disk cb) 0 JBOD_BLOCK_SIZE)) := by
  rw [issue_seek_to_block st cb hup hcb]
  simp only
  rw [issue_read_block]
  · simp
  · exact hup

/-- One step of a cache-less read on a server that is up. -/
theorem read_step_nocache (sp : Span) (first k : Nat) (x : Loop)
    (hc : cache_enabled x.st = false) (hup : x.st.jbod.up = true) (hk : k / 256 < 16)
    (hd : ¬ (k = first ∨ k % 256 = 0) → x.st.jbod.cur_disk = k / 256) :
    lin_step (read_block sp) first x k =
      { st := { x.st with jbod := { x.st.jbod with
                  trace := x.st.jbod.trace ++ read_ops first k,
                  cur_disk := k / 256, cur_block := k % 256 + 1 } },
        buf := memcpy x.buf x.offset
                 (memcpy zero_block 0 (x.st.jbod.store (k / 256) (k % 256)) 0 JBOD_BLOCK_SIZE)
                 (start_cpy sp (k / 256) (k % 256)).toNat (sub_len sp (k / 256) (k % 256)),
        offset := advance sp (k / 256) (k % 256) x.offset } := by
  have hb : k % 256 < 256 := by omega
  by_cases hcond : k = first ∨ k % 256 = 0
  · simp only [lin_step, read_ops, JBOD_NUM_BLOCKS_PER_DISK, if_pos hcond, seek_disk,
      issue_seek_to_disk x.st (k / 256) hup hk, read_block]
    have hc1 : cache_enabled { x.st with jbod := { x.st.jbod with
        trace := x.st.jbod.trace ++ [op_seek_to_disk (k / 256)],
        cur_disk := k / 256, cur_block := 0 } } = false := hc
    rw [if_neg (by rw [hc1]; decide)]
    rw [fetch_block _ _ _ (by exact hup) hb]
    simp [copy_out]
  · have hd1 := hd hcond
    simp only [lin_step, read_ops, JBOD_NUM_BLOCKS_PER_DISK, if_neg hcond, read_block]
    rw [if_neg (by rw [hc]; decide)]
    rw [fetch_block _ _ _ hup hb]
    simp [copy_out, hd1]

theorem cache_enabled_congr (s t : State) (h : s.cache = t.cache) :
    cache_enabled s = cache_enabled t := by
  simp [cache_enabled, cache_size, h]

theorem block_of_addr (q k : Nat) (h1 : k * 256 ≤ q) (h2 : q < (k + 1) * 256) :
    q / 65536 = k / 256 ∧ q % 65536 / 256 = k % 256 ∧ q % 256 = q - k * 256 := by
  omega

theorem range_bounds (addr len k : Nat)
    (hk1 : addr / 256 ≤ k) (hk2 : k ≤ (addr + len - 1) / 256) :
    k * 256 ≤ addr + len - 1 ∧ addr < (k + 1) * 256 := by
  omega

theorem read_inv_step (st : State) (b : Buf) (addr len k : Nat) (x : Loop)
    (hc : cache_enabled st = false)
    (h1 : 1 ≤ len) (h2 : len ≤ 2048) (h3 : addr + len ≤ 1048576)
    (hk1 : addr / 256 ≤ k) (hk2 : k ≤ (addr + len - 1) / 256)
    (hI : ReadInv st b addr len k x) :
    ReadInv st b addr len (k + 1)
      (lin_step (read_block (span_of addr len)) (addr / 256) x k) := by
  obtain ⟨i1, i2, i3, i4, i5, hup, hstore, hoff, hlt, hge, hdisk, htrace⟩ := hI
  have hcx : cache_enabled x.st = false := by rw [cache_enabled_congr x.st st i3]; exact hc
  rw [read_step_nocache _ _ _ x hcx hup (by omega) hdisk]
  have hadv := advance_eq addr len k x.offset h1 h2 h3 hk1 hk2 hoff
  obtain ⟨hstart, hlen⟩ := sub_range_eq addr len k h1 h2 h3 hk1 hk2
  obtain ⟨hb1, hb2⟩ := range_bounds addr len k hk1 hk2
  refine ⟨i1, i2, i3, i4, i5, hup, hstore, hadv, ?_, ?_, ?_, ?_⟩
  · intro i hi
    simp only [hadv] at hi
    simp only [memcpy, hstart, hlen, JBOD_BLOCK_SIZE, hstore]
    clear hk1 hk2 hadv hstart hlen hdisk htrace
    by_cases hin : x.offset ≤ i
    · have c1 : x.offset ≤ i ∧ i < x.offset + ((k + 1) * 256 ⊓ (addr + len) - addr ⊔ k * 256) := by
        omega
      have c2 : 0 ≤ addr ⊔ k * 256 - k * 256 + (i - x.offset)
          ∧ addr ⊔ k * 256 - k * 256 + (i - x.offset) < 0 + 256 := by omega
      rw [if_pos c1, if_pos c2]
      obtain ⟨e1, e2, e3⟩ := block_of_addr (addr + i) k (by omega) (by omega)
      have e4 : 0 + (addr ⊔ k * 256 - k * 256 + (i - x.offset) - 0) = addr + i - k * 256 := by
        omega
      rw [e1, e2, e3, e4]
    · have c1 : ¬ (x.offset ≤ i ∧ i < x.offset + ((k + 1) * 256 ⊓ (addr + len) - addr ⊔ k * 256)) := by
        omega
      rw [if_neg c1]
      exact hlt i (by omega)
  · intro i hi
    simp only [hadv] at hi
    simp only [memcpy, hstart, hlen]
    clear hk1 hk2 hadv hstart hlen hdisk htrace
    have c1 : ¬ (x.offset ≤ i ∧ i < x.offset + ((k + 1) * 256 ⊓ (addr + len) - addr ⊔ k * 256)) := by
      omega
    rw [if_neg c1]
    exact hge i (by omega)
  · intro h
    show k / 256 = (k + 1) / 256
    clear hk1 hk2 hadv hstart hlen hdisk htrace hoff
    omega
  · show x.st.jbod.trace ++ read_ops (addr / 256) k = _
    have e : k + 1 - addr / 256 = (k - addr / 256) + 1 := by omega
    have e2 : addr / 256 + 1 * (k - addr / 256) = k := by omega
    rw [htrace, e, List.range'_concat, List.flatMap_append, e2]
    simp

/-! ### A write without cache, and the round trip -/

theorem store_block (st : State) (cd cb : Nat) (t : Block) (hup : st.jbod.up = true)
    (hcd : cd < 16) (hcb : cb < 256) :
    issue (issue (issue st (op_seek_to_disk cd) none).1 (op_seek_to_block cb) none).1
        op_write_block (some t) =
      ({ st with jbod := { st.jbod with
            trace := st.jbod.trace ++ [op_seek_to_disk cd, op_seek_to_block cb, op_write_block],
            store := fun d k =>
              if d = cd ∧ k = cb then memcpy (st.jbod.store d k) 0 t 0 JBOD_BLOCK_SIZE
              else st.jbod.store d k,
            cur_disk := cd, cur_block := cb + 1 } }, some t) := by
  rw [issue_seek_to_disk st cd hup hcd]
  simp only
  rw [issue_seek_to_block _ cb (by exact hup) hcb]
  simp only
  rw [issue_write_block]
  · simp
  · exact hup

/-- One step of a cache-less write on a server that is up. -/
theorem write_step_nocache (sp : Span) (first k : Nat) (x : Loop)
    (hc : cache_enabled x.st = false) (hup : x.st.jbod.up = true) (hk : k / 256 < 16)
    (hd : ¬ (k = first ∨ k % 256 = 0) → x.st.jbod.cur_disk = k / 256) :
    lin_step (write_block sp) first x k =
      { st := { x.st with jbod := { x.st.jbod with
                  trace := x.st.jbod.trace ++ write_ops first k,
                  store := fun d c =>
                    if d = k / 256 ∧ c = k % 256 then
                      memcpy (x.st.jbod.store d c) 0
                        (memcpy (memcpy zero_block 0 (x.st.jbod.store (k / 256) (k % 256)) 0
                            JBOD_BLOCK_SIZE)
                          (start_cpy sp (k / 256) (k % 256)).toNat x.buf x.offset
                          (sub_len sp (k / 256) (k % 256))) 0 JBOD_BLOCK_SIZE
                    else x.st.jbod.store d c,
                  cur_disk := k / 256, cur_block := k % 256 + 1 } },
        buf := x.buf,
        offset := advance sp (k / 256) (k % 256) x.offset } := by
  have hb : k % 256 < 256 := by omega
  by_cases hcond : k = first ∨ k % 256 = 0
  · simp only [lin_step, write_ops, JBOD_NUM_BLOCKS_PER_DISK, if_pos hcond, seek_disk,
      issue_seek_to_disk x.st (k / 256) hup hk, write_block]
    rw [fetch_block _ _ _ (by exact hup) hb]
    simp only
    rw [store_block _ _ _ _ (by exact hup) hk hb]
    simp only
    have hc1 : ∀ (j : Jbod), cache_enabled { x.st with jbod := j } = false := fun _ => hc
    rw [if_neg (by rw [hc1]; decide)]
    simp
  · have hd1 := hd hcond
    simp only [lin_step, write_ops, JBOD_NUM_BLOCKS_PER_DISK, if_neg hcond, write_block]
    rw [fetch_block _ _ _ hup hb]
    simp only
    rw [store_block _ _ _ _ (by exact hup) hk hb]
    simp only
    have hc1 : ∀ (j : Jbod), cache_enabled { x.st with jbod := j } = false := fun _ => hc
    rw [if_neg (by rw [hc1]; decide)]
    simp [hd1]

theorem write_inv_step (st : State) (b : Buf) (addr len k : Nat) (x : Loop)
    (hc : cache_enabled st = false)
    (h1 : 1 ≤ len) (h2 : len ≤ 2048) (h3 : addr + len ≤ 1048576)
    (hk1 : addr / 256 ≤ k) (hk2 : k ≤ (addr + len - 1) / 256)
    (hI : WriteInv st b addr len k x) :
    WriteInv st b addr len (k + 1)
      (lin_step (write_block (span_of addr len)) (addr / 256) x k) := by
  obtain ⟨i1, i2, i3, i4, i5, hup, hbuf, hoff, hst, hdisk, htrace⟩ := hI
  have hcx : cache_enabled x.st = false := by rw [cache_enabled_congr x.st st i3]; exact hc
  rw [write_step_nocache _ _ _ x hcx hup (by omega) hdisk]
  have hadv := advance_eq addr len k x.offset h1 h2 h3 hk1 hk2 hoff
  obtain ⟨hstart, hlen⟩ := sub_range_eq addr len k h1 h2 h3 hk1 hk2
  obtain ⟨hb1, hb2⟩ := range_bounds addr len k hk1 hk2
  refine ⟨i1, i2, i3, i4, i5, hup, hbuf, hadv, ?_, ?_, ?_⟩
  · intro d c j
    simp only [hadv, hstart, hlen, JBOD_BLOCK_SIZE, hbuf]
    clear hk1 hk2 hadv hstart hlen hdisk htrace
    by_cases hdc : d = k / 256 ∧ c = k % 256
    · obtain ⟨hd, hc'⟩ := hdc
      have hlin : d * 65536 + c * 256 = k * 256 := by omega
      rw [if_pos ⟨hd, hc'⟩]
      by_cases hj : j < 256
      · simp only [memcpy]
        rw [if_pos (by omega)]
        by_cases hnew : addr ⊔ k * 256 - k * 256 ≤ 0 + (j - 0)
            ∧ 0 + (j - 0) < addr ⊔ k * 256 - k * 256 + ((k + 1) * 256 ⊓ (addr + len) - addr ⊔ k * 256)
        · rw [if_pos hnew, if_pos (by omega)]
          congr 1
          omega
        · rw [if_neg hnew]
          have hz : 0 ≤ 0 + (j - 0) ∧ 0 + (j - 0) < 0 + 256 := by omega
          rw [if_pos hz]
          have e0 : 0 + (0 + (j - 0) - 0) = j := by omega
          rw [e0, ← hd, ← hc', hst d c j, if_neg (by omega), if_neg (by omega)]
      · simp only [memcpy]
        rw [if_neg (by omega), hst d c j, if_neg (by omega), if_neg (by omega)]
    · rw [if_neg hdc, hst d c j]
      by_cases hcj : c < 256 ∧ j < 256
      · have hne : d * 65536 + c * 256 + j < k * 256 ∨ (k + 1) * 256 ≤ d * 65536 + c * 256 + j := by
          omega
        by_cases hold : c < 256 ∧ j < 256 ∧ addr ≤ d * 65536 + c * 256 + j
            ∧ d * 65536 + c * 256 + j < addr + x.offset
        · rw [if_pos hold, if_pos (by omega)]
        · rw [if_neg hold, if_neg (by omega)]
      · rw [if_neg (by omega), if_neg (by omega)]
  · intro h
    show k / 256 = (k + 1) / 256
    clear hk1 hk2 hadv hstart hlen hdisk htrace hoff
    omega
  · show x.st.jbod.trace ++ write_ops (addr / 256) k = _
    have e : k + 1 - addr / 256 = (k - addr / 256) + 1 := by omega
    have e2 : addr / 256 + 1 * (k - addr / 256) = k := by omega
    rw [htrace, e, List.range'_concat, List.flatMap_append, e2]
    simp

theorem read_fold_inv (st : State) (b : Buf) (addr len : Nat)
    (hc : cache_enabled st = false) (hup : st.jbod.up = true)
    (h1 : 1 ≤ len) (h2 : len ≤ 2048) (h3 : addr + len ≤ 1048576) :
    ReadInv st b addr len ((addr + len - 1) / 256 + 1)
      (List.foldl (lin_step (read_block (span_of addr len)) (addr / 256))
        { st := st, buf := b, offset := 0 }
        (List.range' (addr / 256) ((addr + len - 1) / 256 + 1 - addr / 256))) := by
  have h := foldl_range_inv (lin_step (read_block (span_of addr len)) (addr / 256))
    (ReadInv st b addr len)
    ((addr + len - 1) / 256 + 1 - addr / 256) (addr / 256) { st := st, buf := b, offset := 0 }
    (by
      refine ⟨rfl, rfl, rfl, rfl, rfl, hup, rfl, ?_, ?_, ?_, ?_, ?_⟩
      · show 0 = _
        omega
      · intro i hi
        exact absurd hi (Nat.not_lt_zero i)
      · intro i _
        rfl
      · intro h
        exact absurd (Or.inl rfl) h
      · simp)
    (fun k y hk1 hk2 hI =>
      read_inv_step st b addr len k y hc h1 h2 h3 hk1 (by omega) hI)
  have e : addr / 256 + ((addr + len - 1) / 256 + 1 - addr / 256) = (addr + len - 1) / 256 + 1 := by
    omega
  rw [e] at h
  exact h

theorem write_fold_inv (st : State) (b : Buf) (addr len : Nat)
    (hc : cache_enabled st = false) (hup : st.jbod.up = true)
    (h1 : 1 ≤ len) (h2 : len ≤ 2048) (h3 : addr + len ≤ 1048576) :
    WriteInv st b addr len ((addr + len - 1) / 256 + 1)
      (List.foldl (lin_step (write_block (span_of addr len)) (addr / 256))
        { st := st, buf := b, offset := 0 }
        (List.range' (addr / 256) ((addr + len - 1) / 256 + 1 - addr / 256))) := by
  have h := foldl_range_inv (lin_step (write_block (span_of addr len)) (addr / 256))
    (WriteInv st b addr len)
    ((addr + len - 1) / 256 + 1 - addr / 256) (addr / 256) { st := st, buf := b, offset := 0 }
    (by
      refine ⟨rfl, rfl, rfl, rfl, rfl, hup, rfl, ?_, ?_, ?_, ?_⟩
      · show 0 = _
        omega
      · intro d c j
        show st.jbod.store d c j
          = if c < 256 ∧ j < 256 ∧ addr ≤ d * 65536 + c * 256 + j
                ∧ d * 65536 + c * 256 + j < addr + 0 then
              b (d * 65536 + c * 256 + j - addr)
            else st.jbod.store d c j
        rw [if_neg (by omega)]
      · intro h
        exact absurd (Or.inl rfl) h
      · simp)
    (fun k y hk1 hk2 hI =>
      write_inv_step st b addr len k y hc h1 h2 h3 hk1 (by omega) hI)
  have e : addr / 256 + ((addr + len - 1) / 256 + 1 - addr / 256) = (addr + len - 1) / 256 + 1 := by
    omega
  rw [e] at h
  exact h

theorem final_offset (addr len : Nat) (h1 : 1 ≤ len) :
    min (((addr + len - 1) / 256 + 1) * 256) (addr + len) - addr = len := by
  omega

/-- Effect of a cache-less write: it returns `len`, the bytes of the range hold
the data, every other stored byte is as before, the flags and the (disabled)
cache are untouched, and the commands are those of `write_trace addr len`. -/
theorem write_without_cache (st : State) (addr len : Nat) (data : Buf)
    (hm : st.is_mounted ≠ 0) (hw : st.is_written ≠ 0) (hc : cache_enabled st = false)
    (hup : st.jbod.up = true)
    (h1 : 1 ≤ len) (h2 : len ≤ 2048) (h3 : addr + len ≤ JBOD_NUM_DISKS * JBOD_DISK_SIZE) :
    ∃ st1, mdadm_write st addr len (some data) = ((len : Int), st1)
      ∧ st1.is_mounted = st.is_mounted ∧ st1.is_written = st.is_written
      ∧ st1.cache = st.cache ∧ st1.jbod.up = true
      ∧ (∀ d c j, st1.jbod.store d c j =
          if c < 256 ∧ j < 256 ∧ addr ≤ d * 65536 + c * 256 + j
              ∧ d * 65536 + c * 256 + j < addr + len then
            data (d * 65536 + c * 256 + j - addr)
          else st.jbod.store d c j)
      ∧ st1.jbod.trace = st.jbod.trace ++ write_trace addr len := by
  have h3a : addr + len ≤ 1048576 := h3
  rw [mdadm_write_eq st addr len data hm hw h1 h2 h3a]
  have h := write_fold_inv st data addr len hc hup h1 h2 h3a
  simp only
  generalize List.foldl (lin_step (write_block (span_of addr len)) (addr / 256))
    { st := st, buf := data, offset := 0 }
    (List.range' (addr / 256) ((addr + len - 1) / 256 + 1 - addr / 256)) = x at h
  obtain ⟨i1, i2, i3, _, _, hup1, _, hoff, hst, _, htrace⟩ := h
  rw [final_offset addr len h1] at hoff
  refine ⟨x.st, by rw [hoff], i1, i2, i3, hup1, ?_, ?_⟩
  · intro d c j
    rw [hst d c j, hoff]
  · rw [htrace]
    simp [write_trace, JBOD_BLOCK_SIZE]

/-- Round trip without cache: on a mounted, write-permitted session with the
cache disabled and a server that is up, for `1 <= len <= 2048` and
`addr + len <= D * S`, `mdadm_write(addr, len, data)` followed by
`mdadm_read(addr, len, out)` both return `len` and leave `out[i] = data[i]`
for every `i < len`. -/
theorem round_trip_without_cache (st : State) (addr len : Nat) (data out : Buf)
    (hm : st.is_mounted ≠ 0) (hw : st.is_written ≠ 0) (hc : cache_enabled st = false)
    (hup : st.jbod.up = true)
    (h1 : 1 ≤ len) (h2 : len ≤ 2048) (h3 : addr + len ≤ JBOD_NUM_DISKS * JBOD_DISK_SIZE) :
    ∃ st1 st2 b1, mdadm_write st addr len (some data) = ((len : Int), st1)
      ∧ mdadm_read st1 addr len (some out) = ((len : Int), st2, some b1)
      ∧ ∀ i, i < len → b1 i = data i := by
  obtain ⟨st1, e1, f1, _, f3, f4, hst, _⟩ :=
    write_without_cache st addr len data hm hw hc hup h1 h2 h3
  have h3a : addr + len ≤ 1048576 := h3
  have hm1 : st1.is_mounted ≠ 0 := by rw [f1]; exact hm
  have hc1 : cache_enabled st1 = false := by rw [cache_enabled_congr st1 st f3]; exact hc
  have h := read_fold_inv st1 out addr len hc1 f4 h1 h2 h3a
  have hread := mdadm_read_eq st1 addr len out hm1 h1 h2 h3a
  simp only at hread
  generalize List.foldl (lin_step (read_block (span_of addr len)) (addr / 256))
    { st := st1, buf := out, offset := 0 }
    (List.range' (addr / 256) ((addr + len - 1) / 256 + 1 - addr / 256)) = x at h hread
  obtain ⟨_, _, _, _, _, _, _, hoff, hlt, _⟩ := h
  rw [final_offset addr len h1] at hoff
  refine ⟨st1, x.st, x.buf, e1, by rw [hread, hoff], ?_⟩
  intro i hi
  rw [hlt i (by rw [hoff]; exact hi), hst]
  clear hlt hst hoff
  have e : (addr + i) / 65536 * 65536 + (addr + i) % 65536 / 256 * 256 + (addr + i) % 256
      = addr + i := by omega
  rw [e, if_pos (by omega)]
  congr 1
  omega

/-! ### The cache scans -/

theorem insert_scan_inl (d b : Int) (buf : Block) :
    ∀ (c : List cache_entry_t) (i : Nat) (f : Int) (o : Nat) (c1 : List cache_entry_t),
      insert_scan d b buf c i f o = Sum.inl c1 →
      ∃ pre q post, c = pre ++ q :: post ∧ (∀ p ∈ pre, p.valid = true) ∧ q.valid = false
        ∧ c1 = pre ++ fill_entry q d b buf :: post := by
  intro c
  induction c with
  | nil => intro i f o c1 h; simp [insert_scan] at h
  | cons p rest ih =>
    intro i f o c1 h
    rw [insert_scan] at h
    by_cases hv : p.valid = false
    · rw [if_pos hv] at h
      injection h with h
      exact ⟨[], p, rest, rfl, by simp, hv, by simp [← h]⟩
    · rw [if_neg hv] at h
      simp only at h
      split at h
      · rename_i rest1 hrest
        injection h with h
        obtain ⟨pre, q, post, e1, e2, e3, e4⟩ := ih _ _ _ _ hrest
        refine ⟨p :: pre, q, post, by simp [e1], ?_, e3, by simp [← h, e4]⟩
        intro p1 hp1
        rcases List.mem_cons.1 hp1 with h1 | h1
        · subst h1; simpa using hv
        · exact e2 p1 h1
      · simp at h

theorem insert_scan_inr (d b : Int) (buf : Block) :
    ∀ (c : List cache_entry_t) (i : Nat) (f : Int) (o o1 : Nat),
      insert_scan d b buf c i f o = Sum.inr o1 → f ≤ 0 →
      (∀ p ∈ c, p.valid = true) ∧ o1 = o := by
  intro c
  induction c with
  | nil =>
    intro i f o o1 h _
    simp only [insert_scan] at h
    injection h with h
    exact ⟨by simp, h.symm⟩
  | cons p rest ih =>
    intro i f o o1 h hf
    rw [insert_scan] at h
    by_cases hv : p.valid = false
    · rw [if_pos hv] at h
      simp at h
    · rw [if_neg hv] at h
      have hn : ¬ (f > (p.num_accesses : Int)) := by omega
      simp only [if_neg hn] at h
      split at h
      · simp at h
      · rename_i o2 hrest
        injection h with h
        obtain ⟨e1, e2⟩ := ih _ _ _ _ hrest hf
        refine ⟨?_, by omega⟩
        intro p1 hp1
        rcases List.mem_cons.1 hp1 with h1 | h1
        · subst h1; simpa using hv
        · exact e1 p1 h1

theorem has_valid_key_false (d b : Int) :
    ∀ (c : List cache_entry_t), has_valid_key d b c = false →
      ∀ p ∈ c, p.valid = true → ¬ (p.disk_num = d ∧ p.block_num = b) := by
  intro c
  induction c with
  | nil => intro _ p hp; simp at hp
  | cons q rest ih =>
    intro h p hp hv
    rw [has_valid_key] at h
    by_cases hq : q.disk_num = d ∧ q.block_num = b ∧ q.valid = true
    · rw [if_pos hq] at h
      simp at h
    · rw [if_neg hq] at h
      rcases List.mem_cons.1 hp with h1 | h1
      · subst h1
        intro hk
        exact hq ⟨hk.1, hk.2, hv⟩
      · exact ih h p h1 hv

theorem lookup_scan_hit (d b : Int) (out : Block) (q : cache_entry_t)
    (post : List cache_entry_t) (hq : q.disk_num = d ∧ q.block_num = b) :
    ∀ (pre : List cache_entry_t), (∀ p ∈ pre, ¬ (p.disk_num = d ∧ p.block_num = b)) →
      lookup_scan d b out (pre ++ q :: post)
        = some (memcpy out 0 q.block 0 JBOD_BLOCK_SIZE,
                pre ++ { q with num_accesses := q.num_accesses + 1 } :: post) := by
  intro pre
  induction pre with
  | nil => intro _; simp [lookup_scan, hq]
  | cons p rest ih =>
    intro h
    have hp : ¬ (p.disk_num = d ∧ p.block_num = b) := h p (by simp)
    have hr := ih (fun p1 hp1 => h p1 (by simp [hp1]))
    rw [List.cons_append, lookup_scan, if_neg hp, hr]
    rfl

theorem insert_precheck_ok (st : State) (d b : Int) (buf : Block) (c : List cache_entry_t)
    (hc : st.cache = some c) (h : ¬ insert_precheck st d b (some buf) = -1) :
    (0 ≤ d ∧ d < 16) ∧ (0 ≤ b ∧ b < 256) ∧ has_valid_key d b c = false := by
  simp [insert_precheck, hc, JBOD_NUM_DISKS, JBOD_BLOCK_SIZE] at h
  obtain ⟨a1, a2, a3, a4, a5⟩ := h
  exact ⟨⟨a1, a2⟩, ⟨a3, a4⟩, a5⟩

/-- A lookup of the key of entry `q` hits `q` when every entry before it is
valid and has another key. -/
theorem cache_lookup_hit (st : State) (d b : Int) (out : Block)
    (pre post : List cache_entry_t) (q : cache_entry_t)
    (hc : st.cache = some (pre ++ q :: post))
    (hd : 0 ≤ d ∧ d < 16) (hb : 0 ≤ b ∧ b < 256)
    (hq : q.valid = true ∧ q.disk_num = d ∧ q.block_num = b)
    (hpre : ∀ p ∈ pre, p.valid = true ∧ ¬ (p.disk_num = d ∧ p.block_num = b)) :
    cache_lookup st d b (some out)
      = (1, { st with cache := some (pre ++ { q with num_accesses := q.num_accesses + 1 } :: post),
                      num_hits := st.num_hits + 1,
                      num_queries := st.num_queries + 1 },
         some (memcpy out 0 q.block 0 JBOD_BLOCK_SIZE)) := by
  have hhead : ((pre ++ q :: post).headD calloc_entry).valid = true := by
    cases pre with
    | nil => simpa using hq.1
    | cons p rest => simpa using (hpre p (by simp)).1
  have hpc : lookup_precheck st d b (some out) = 1 := by
    have n1 : ¬ (d < 0 ∨ d ≥ ((16 : Nat) : Int)) := by omega
    have n2 : ¬ (b < 0 ∨ b ≥ ((256 : Nat) : Int)) := by omega
    simp only [lookup_precheck, hc, hhead, JBOD_NUM_DISKS, JBOD_BLOCK_SIZE, if_neg n1, if_neg n2]
    simp
  have hs := lookup_scan_hit d b out q post ⟨hq.2.1, hq.2.2⟩ pre (fun p hp => (hpre p hp).2)
  simp only [cache_lookup, hpc, hc, hs]
  simp

/-! ### Reachable cache states -/

theorem lookup_scan_tags (d b : Int) (buf : Block) :
    ∀ (c : List cache_entry_t) (r : Block × List cache_entry_t),
      lookup_scan d b buf c = some r → r.2.map tag = c.map tag := by
  intro c
  induction c with
  | nil => intro r h; simp [lookup_scan] at h
  | cons p rest ih =>
    intro r h
    rw [lookup_scan] at h
    by_cases hk : p.disk_num = d ∧ p.block_num = b
    · rw [if_pos hk] at h
      injection h with h
      rw [← h]
      rfl
    · rw [if_neg hk] at h
      split at h
      · simp at h
      · rename_i r1 hr1
        injection h with h
        rw [← h]
        simp only [List.map_cons, ih r1 hr1]

theorem update_scan_tags (d b : Int) (buf : Block) :
    ∀ (c : List cache_entry_t), (update_scan d b buf c).map tag = c.map tag := by
  intro c
  induction c with
  | nil => rfl
  | cons p rest ih =>
    rw [update_scan]
    by_cases hk : p.disk_num = d ∧ p.block_num = b
    · rw [if_pos hk]; rfl
    · rw [if_neg hk, List.map_cons, List.map_cons, ih]

theorem no_dup_keys_tags (c1 c2 : List cache_entry_t) (h : c1.map tag = c2.map tag)
    (h2 : no_dup_keys c2) : no_dup_keys c1 := by
  have e : ∀ c : List cache_entry_t, no_dup_keys c ↔
      (c.map tag).Pairwise (fun t u => t.1 = true → u.1 = true →
        ¬ (t.2.1 = u.2.1 ∧ t.2.2 = u.2.2)) := by
    intro c
    rw [List.pairwise_map]
    rfl
  rw [e] at h2 ⊢
  rw [h]
  exact h2

theorem valid_front_tags (c1 c2 : List cache_entry_t) (h : c1.map tag = c2.map tag)
    (h2 : valid_front c2) : valid_front c1 := by
  have e : ∀ c : List cache_entry_t, valid_front c ↔
      (c.map tag).Pairwise (fun t u => u.1 = true → t.1 = true) := by
    intro c
    rw [List.pairwise_map]
    rfl
  rw [e] at h2 ⊢
  rw [h]
  exact h2

/-- What `cache_lookup` does to the array: valid flags and keys stay. -/
theorem cache_lookup_tags (st : State) (d b : Int) (buf : Option Block)
    (c : List cache_entry_t) (hc : st.cache = some c) :
    ∃ c1, (cache_lookup st d b buf).2.1.cache = some c1 ∧ c1.map tag = c.map tag := by
  by_cases hp : lookup_precheck st d b buf = -1
  · exact ⟨c, by simp [cache_lookup, hp, hc], rfl⟩
  · cases buf with
    | none => simp [lookup_precheck, hc] at hp
    | some b0 =>
      simp only [cache_lookup, if_neg hp, hc]
      cases hs : lookup_scan d b b0 c with
      | none => exact ⟨c, rfl, rfl⟩
      | some r => exact ⟨r.2, rfl, lookup_scan_tags d b b0 c r hs⟩

theorem cache_update_tags (st : State) (d b : Int) (buf : Block)
    (c : List cache_entry_t) (hc : st.cache = some c) :
    ∃ c1, (cache_update st d b buf).cache = some c1 ∧ c1.map tag = c.map tag := by
  simp only [cache_update, hc]
  exact ⟨_, rfl, update_scan_tags d b buf c⟩

/-- What `cache_insert` does to the array: nothing, or one entry `q`, with only
valid entries in front of it, is filled with a key that no valid entry had. -/
theorem cache_insert_cases (st : State) (d b : Int) (buf : Option Block)
    (c : List cache_entry_t) (hc : st.cache = some c) :
    (cache_insert st d b buf).2.cache = some c
    ∨ ∃ content pre q post, c = pre ++ q :: post ∧ (∀ p ∈ pre, p.valid = true)
        ∧ has_valid_key d b c = false
        ∧ (cache_insert st d b buf).2.cache
            = some (pre ++ fill_entry q d b content :: post) := by
  by_cases hpre : insert_precheck st d b buf = -1
  · left
    simp [cache_insert, hpre, hc]
  · cases buf with
    | none => simp [insert_precheck, hc] at hpre
    | some content =>
      obtain ⟨_, _, hdup⟩ := insert_precheck_ok st d b content c hc hpre
      simp only [cache_insert, if_neg hpre, hc]
      cases hscan : insert_scan d b content c 0 0 0 with
      | inl c1 =>
        obtain ⟨pre, q, post, e1, e2, _, e4⟩ := insert_scan_inl d b content c 0 0 0 c1 hscan
        right
        exact ⟨content, pre, q, post, e1, e2, hdup, by rw [e4]⟩
      | inr o =>
        obtain ⟨_, e2⟩ := insert_scan_inr d b content c 0 0 0 o hscan (Int.le_refl 0)
        subst e2
        cases c with
        | nil => left; rfl
        | cons q0 post =>
          right
          exact ⟨content, [], q0, post, rfl, by simp, hdup, rfl⟩

theorem no_dup_keys_fill (d b : Int) (content : Block) (pre post : List cache_entry_t)
    (q : cache_entry_t) (hdup : has_valid_key d b (pre ++ q :: post) = false)
    (h : no_dup_keys (pre ++ q :: post)) :
    no_dup_keys (pre ++ fill_entry q d b content :: post) := by
  have hk := has_valid_key_false d b _ hdup
  unfold no_dup_keys at h ⊢
  rw [List.pairwise_append, List.pairwise_cons] at h ⊢
  obtain ⟨h1, ⟨_, h3⟩, h4⟩ := h
  refine ⟨h1, ⟨?_, h3⟩, ?_⟩
  · intro p hp _ vp hkey
    exact hk p (by simp [hp]) vp ⟨hkey.1.symm, hkey.2.symm⟩
  · intro a ha x hx
    rcases List.mem_cons.1 hx with hx | hx
    · subst hx
      intro va _ hkey
      exact hk a (by simp [ha]) va hkey
    · exact h4 a ha x (by simp [hx])

theorem valid_front_fill (d b : Int) (content : Block) (pre post : List cache_entry_t)
    (q : cache_entry_t) (hpre : ∀ p ∈ pre, p.valid = true)
    (h : valid_front (pre ++ q :: post)) :
    valid_front (pre ++ fill_entry q d b content :: post) := by
  unfold valid_front at h ⊢
  rw [List.pairwise_append, List.pairwise_cons] at h ⊢
  obtain ⟨h1, ⟨_, h3⟩, h4⟩ := h
  refine ⟨h1, ⟨?_, h3⟩, ?_⟩
  · intro p _ _
    rfl
  · intro a ha x hx
    rcases List.mem_cons.1 hx with hx | hx
    · subst hx
      intro _
      exact hpre a ha
    · exact h4 a ha x (by simp [hx])

theorem cache_create_cache (st : State) (n : Int) (h : (cache_create st n).1 = 1) :
    (cache_create st n).2.cache = some (List.replicate n.toNat calloc_entry) := by
  unfold cache_create at h ⊢
  split at h
  · simp at h
  · split at h
    · rename_i h1 h2
      rw [if_neg h1, if_pos h2]
    · simp at h

/-- Both invariants hold in every reachable state. -/
theorem cache_reachable_inv (st : State) (h : cache_reachable st) :
    ∃ c, st.cache = some c ∧ no_dup_keys c ∧ valid_front c := by
  induction h with
  | create st n hn =>
    refine ⟨_, cache_create_cache st n hn, ?_, ?_⟩
    · unfold no_dup_keys
      rw [List.pairwise_replicate]
      right
      intro hv
      simp [calloc_entry] at hv
    · unfold valid_front
      rw [List.pairwise_replicate]
      right
      intro hv
      exact hv
  | lookup st d b buf _ ih =>
    obtain ⟨c, hc, h1, h2⟩ := ih
    obtain ⟨c1, e1, e2⟩ := cache_lookup_tags st d b buf c hc
    exact ⟨c1, e1, no_dup_keys_tags c1 c e2 h1, valid_front_tags c1 c e2 h2⟩
  | insert st d b buf _ ih =>
    obtain ⟨c, hc, h1, h2⟩ := ih
    rcases cache_insert_cases st d b buf c hc with e | ⟨content, pre, q, post, e1, e2, e3, e4⟩
    · exact ⟨c, e, h1, h2⟩
    · subst e1
      exact ⟨_, e4, no_dup_keys_fill d b content pre post q e3 h1,
        valid_front_fill d b content pre post q e2 h2⟩
  | update st d b buf _ ih =>
    obtain ⟨c, hc, h1, h2⟩ := ih
    obtain ⟨c1, e1, e2⟩ := cache_update_tags st d b buf c hc
    exact ⟨c1, e1, no_dup_keys_tags c1 c e2 h1, valid_front_tags c1 c e2 h2⟩

theorem lookup_scan_none (d b : Int) (buf : Block) :
    ∀ (es : List cache_entry_t), (∀ p ∈ es, ¬ (p.disk_num = d ∧ p.block_num = b)) →
      lookup_scan d b buf es = none := by
  intro es
  induction es with
  | nil => intro _; rfl
  | cons p rest ih =>
    intro h
    have hp : ¬ (p.disk_num = d ∧ p.block_num = b) := h p (by simp)
    rw [lookup_scan, if_neg hp, ih (fun q hq => h q (by simp [hq]))]

theorem lfu_two_reachable : cache_reachable lfu_two :=
  cache_reachable.insert _ 0 1 _
    (cache_reachable.insert _ 0 0 _ (cache_reachable.create demo_start 2 (by decide)))

theorem one_cached_reachable : cache_reachable one_cached :=
  cache_reachable.insert _ 1 1 _ (cache_reachable.create demo_start 2 (by decide))

/-! ### The commands of a transfer, for every cache and every server -/

theorem jbod_server_trace (j : Jbod) (op : Nat) (block : Option Block) :
    (jbod_server j op block).1.trace = j.trace ++ [op] := by
  unfold jbod_server
  simp only
  repeat (first | rfl | split)

theorem jbod_server_up (j : Jbod) (op : Nat) (block : Option Block) :
    (jbod_server j op block).1.up = j.up := by
  unfold jbod_server
  simp only
  repeat (first | rfl | split)

theorem jbod_client_operation_jbod (j : Jbod) (op : Nat) (block : Option Block) :
    (jbod_client_operation j op block).2.1 = (jbod_server j op block).1 := by
  unfold jbod_client_operation
  simp only
  repeat (first | rfl | split)

theorem issue_trace (st : State) (op : Nat) (block : Option Block) :
    (issue st op block).1.jbod.trace = st.jbod.trace ++ [op] := by
  show (jbod_client_operation st.jbod op block).2.1.trace = _
  rw [jbod_client_operation_jbod, jbod_server_trace]

theorem cache_lookup_jbod (st : State) (d b : Int) (buf : Option Block) :
    (cache_lookup st d b buf).2.1.jbod = st.jbod := by
  unfold cache_lookup
  repeat (first | rfl | split)

theorem cache_insert_jbod (st : State) (d b : Int) (buf : Option Block) :
    (cache_insert st d b buf).2.jbod = st.jbod := by
  unfold cache_insert
  repeat (first | rfl | split)

theorem cache_update_jbod (st : State) (d b : Int) (buf : Block) :
    (cache_update st d b buf).jbod = st.jbod := by
  unfold cache_update
  repeat (first | rfl | split)

/-- The server side of one block iteration of `mdadm_write` does not depend on
the cache. -/
theorem write_block_jbod (sp : Span) (cd cb : Nat) (x : Loop) :
    (write_block sp cd cb x).st.jbod
      = (issue (issue (issue (issue (issue x.st (op_seek_to_block cb) none).1 op_read_block
            (some zero_block)).1 (op_seek_to_disk cd) none).1 (op_seek_to_block cb) none).1
          op_write_block
          (some (memcpy ((issue (issue x.st (op_seek_to_block cb) none).1 op_read_block
              (some zero_block)).2.getD zero_block)
            (start_cpy sp cd cb).toNat x.buf x.offset (sub_len sp cd cb)))).1.jbod := by
  simp only [write_block]
  split
  · split
    · rw [cache_update_jbod, cache_lookup_jbod]
    · rw [cache_insert_jbod, cache_lookup_jbod]
  · rfl

theorem write_block_trace (sp : Span) (cd cb : Nat) (x : Loop) :
    (write_block sp cd cb x).st.jbod.trace
      = x.st.jbod.trace ++ [op_seek_to_block cb, op_read_block, op_seek_to_disk cd,
          op_seek_to_block cb, op_write_block] := by
  rw [write_block_jbod]
  simp only [issue_trace, List.append_assoc, List.singleton_append]
  rfl

theorem lin_step_write_trace (sp : Span) (first k : Nat) (x : Loop) :
    (lin_step (write_block sp) first x k).st.jbod.trace
      = x.st.jbod.trace ++ write_ops first k := by
  unfold lin_step write_ops
  rw [write_block_trace]
  split
  · simp only [seek_disk, issue_trace, List.append_assoc, List.singleton_append]
  · simp

theorem issue_same (s t : State) (h : s.jbod = t.jbod) (op : Nat) (block : Option Block) :
    (issue s op block).1.jbod = (issue t op block).1.jbod
    ∧ (issue s op block).2 = (issue t op block).2 := by
  unfold issue
  rw [h]
  exact ⟨rfl, rfl⟩

theorem write_block_same (sp : Span) (cd cb : Nat) (x y : Loop) (h : same_io x y) :
    same_io (write_block sp cd cb x) (write_block sp cd cb y) := by
  obtain ⟨hj, hb, ho⟩ := h
  refine ⟨?_, hb, ?_⟩
  · rw [write_block_jbod, write_block_jbod]
    have a1 := issue_same x.st y.st hj (op_seek_to_block cb) none
    have a2 := issue_same _ _ a1.1 op_read_block (some zero_block)
    have a3 := issue_same _ _ a2.1 (op_seek_to_disk cd) none
    have a4 := issue_same _ _ a3.1 (op_seek_to_block cb) none
    rw [a2.2, hb, ho]
    exact (issue_same _ _ a4.1 op_write_block _).1
  · show advance sp cd cb x.offset = advance sp cd cb y.offset
    rw [ho]

theorem lin_step_write_same (sp : Span) (first k : Nat) (x y : Loop) (h : same_io x y) :
    same_io (lin_step (write_block sp) first x k) (lin_step (write_block sp) first y k) := by
  unfold lin_step
  apply write_block_same
  split
  · exact ⟨(issue_same x.st y.st h.1 _ none).1, h.2.1, h.2.2⟩
  · exact h

theorem foldl_write_same (sp : Span) (first : Nat) :
    ∀ (ks : List Nat) (x y : Loop), same_io x y →
      same_io (List.foldl (lin_step (write_block sp) first) x ks)
        (List.foldl (lin_step (write_block sp) first) y ks) := by
  intro ks
  induction ks with
  | nil => intro x y h; exact h
  | cons k rest ih =>
    intro x y h
    exact ih _ _ (lin_step_write_same sp first k x y h)

/-- A fold whose steps each append their commands appends the commands of all
steps, in order. -/
theorem foldl_trace (f : Loop → Nat → Loop) (ops : Nat → List Nat) (P : Loop → Prop)
    (h : ∀ x k, P x → P (f x k) ∧ (f x k).st.jbod.trace = x.st.jbod.trace ++ ops k) :
    ∀ (ks : List Nat) (x : Loop), P x →
      (List.foldl f x ks).st.jbod.trace = x.st.jbod.trace ++ ks.flatMap ops := by
  intro ks
  induction ks with
  | nil => intro x _; simp
  | cons k rest ih =>
    intro x hx
    obtain ⟨h1, h2⟩ := h x k hx
    rw [List.foldl_cons, ih _ h1, h2, List.flatMap_cons, List.append_assoc]

/-- The commands of a write, for every cache state and every server. -/
theorem write_trace_eq (st : State) (addr len : Nat) (b : Buf) (hm : st.is_mounted ≠ 0)
    (hw : st.is_written ≠ 0) (h1 : 1 ≤ len) (h2 : len ≤ 2048) (h3 : addr + len ≤ 1048576) :
    (mdadm_write st addr len (some b)).2.jbod.trace = st.jbod.trace ++ write_trace addr len := by
  rw [mdadm_write_eq st addr len b hm hw h1 h2 h3]
  simp only
  rw [foldl_trace _ (write_ops (addr / 256)) (fun _ => True)
    (fun x k _ => ⟨trivial, lin_step_write_trace _ _ k x⟩) _ _ trivial]
  rfl

theorem read_block_nocache (sp : Span) (cd cb : Nat) (x : Loop)
    (hc : cache_enabled x.st = false) :
    (read_block sp cd cb x).st.cache = x.st.cache
    ∧ (read_block sp cd cb x).st.jbod.trace
        = x.st.jbod.trace ++ [op_seek_to_block cb, op_read_block] := by
  simp only [read_block]
  rw [if_neg (by rw [hc]; decide)]
  refine ⟨rfl, ?_⟩
  simp only [copy_out, issue_trace, List.append_assoc, List.singleton_append]

theorem lin_step_read_nocache (sp : Span) (first k : Nat) (x : Loop)
    (hc : cache_enabled x.st = false) :
    cache_enabled (lin_step (read_block sp) first x k).st = false
    ∧ (lin_step (read_block sp) first x k).st.jbod.trace
        = x.st.jbod.trace ++ read_ops first k := by
  unfold lin_step read_ops
  split
  · have hc1 : cache_enabled (seek_disk (k / JBOD_NUM_BLOCKS_PER_DISK) x).st = false := hc
    obtain ⟨e1, e2⟩ := read_block_nocache sp (k / JBOD_NUM_BLOCKS_PER_DISK)
      (k % JBOD_NUM_BLOCKS_PER_DISK) _ hc1
    refine ⟨by rw [cache_enabled_congr _ _ e1]; exact hc1, ?_⟩
    rw [e2]
    simp only [seek_disk, issue_trace, List.append_assoc, List.singleton_append]
  · obtain ⟨e1, e2⟩ := read_block_nocache sp (k / JBOD_NUM_BLOCKS_PER_DISK)
      (k % JBOD_NUM_BLOCKS_PER_DISK) x hc
    refine ⟨by rw [cache_enabled_congr _ _ e1]; exact hc, ?_⟩
    rw [e2]
    simp

/-- The commands of a cache-less read, for every server. -/
theorem read_trace_eq (st : State) (addr len : Nat) (b : Buf) (hm : st.is_mounted ≠ 0)
    (hc : cache_enabled st = false)
    (h1 : 1 ≤ len) (h2 : len ≤ 2048) (h3 : addr + len ≤ 1048576) :
    (mdadm_read st addr len (some b)).2.1.jbod.trace = st.jbod.trace ++ read_trace addr len := by
  rw [mdadm_read_eq st addr len b hm h1 h2 h3]
  simp only
  rw [foldl_trace _ (read_ops (addr / 256)) (fun x => cache_enabled x.st = false)
    (fun x k hx => lin_step_read_nocache _ _ k x hx) _ _ hc]
  rfl

/-- Effect of a write on a server that is up, for every cache state: it
returns `len`, exactly the bytes of the range take the data, and the commands
are those of `write_trace addr len`. -/
theorem write_effect (st : State) (addr len : Nat) (data : Buf)
    (hm : st.is_mounted ≠ 0) (hw : st.is_written ≠ 0) (hup : st.jbod.up = true)
    (h1 : 1 ≤ len) (h2 : len ≤ 2048) (h3 : addr + len ≤ 1048576) :
    (mdadm_write st addr len (some data)).1 = (len : Int)
    ∧ (∀ d c j, (mdadm_write st addr len (some data)).2.jbod.store d c j =
          if c < 256 ∧ j < 256 ∧ addr ≤ d * 65536 + c * 256 + j
              ∧ d * 65536 + c * 256 + j < addr + len then
            data (d * 65536 + c * 256 + j - addr)
          else st.jbod.store d c j)
    ∧ (mdadm_write st addr len (some data)).2.jbod.trace
        = st.jbod.trace ++ write_trace addr len := by
  have hs := foldl_write_same (span_of addr len) (addr / 256)
    (List.range' (addr / 256) ((addr + len - 1) / 256 + 1 - addr / 256))
    { st := st, buf := data, offset := 0 }
    { st := { st with cache := none }, buf := data, offset := 0 } ⟨rfl, rfl, rfl⟩
  have hinv := write_fold_inv { st with cache := none } data addr len rfl hup h1 h2 h3
  rw [mdadm_write_eq st addr len data hm hw h1 h2 h3]
  simp only
  obtain ⟨hj, _, ho⟩ := hs
  obtain ⟨_, _, _, _, _, _, _, hoff, hst, _, htrace⟩ := hinv
  rw [final_offset addr len h1] at hoff
  rw [hj, ho, hoff]
  refine ⟨rfl, ?_, ?_⟩
  · intro d c j
    rw [hst d c j, hoff]
  · rw [htrace]
    simp [write_trace, JBOD_BLOCK_SIZE]

theorem mdadm_read_result (st : State) (addr len : Nat) (b : Buf) (hm : st.is_mounted ≠ 0)
    (h1 : 1 ≤ len) (h2 : len ≤ 2048) (h3 : addr + len ≤ 1048576) :
    (mdadm_read st addr len (some b)).1 = (len : Int) := by
  have hl : len ≠ 0 := by omega
  simp only [mdadm_read, read_precheck_ok st addr len b hm h2 h3, JBOD_NO_ERROR, if_true,
    if_neg hl]
  rw [transfer_offset (read_block (span_of addr len)) addr len _
    (read_block_offset _) h1 h2 h3 rfl]

theorem mdadm_write_result (st : State) (addr len : Nat) (b : Buf) (hm : st.is_mounted ≠ 0)
    (hw : st.is_written ≠ 0) (h1 : 1 ≤ len) (h2 : len ≤ 2048) (h3 : addr + len ≤ 1048576) :
    (mdadm_write st addr len (some b)).1 = (len : Int) := by
  have hl : len ≠ 0 := by omega
  simp only [mdadm_write, write_precheck_ok st addr len b hm hw h2 h3, JBOD_NO_ERROR, if_true,
    if_neg hl]
  rw [transfer_offset (write_block (span_of addr len)) addr len _
    (write_block_offset _) h1 h2 h3 rfl]

theorem op_write_block_distinct :
    (∀ cd, cd < 16 → op_seek_to_disk cd ≠ op_write_block)
    ∧ op_read_block ≠ op_write_block := by
  decide

set_option maxRecDepth 100000 in
theorem op_seek_to_block_distinct : ∀ cb, cb < 256 → op_seek_to_block cb ≠ op_write_block := by
  decide

theorem count_write_ops (first k : Nat) (hk : k < 4096) :
    List.count op_write_block (write_ops first k) = 1 := by
  have a1 := op_write_block_distinct.1 (k / 256) (by omega)
  have a2 := op_write_block_distinct.2
  have a3 := op_seek_to_block_distinct (k % 256) (by omega)
  unfold write_ops
  simp only [JBOD_NUM_BLOCKS_PER_DISK]
  split <;> simp [List.count_cons, a1, a2, a3]

theorem count_write_ops_range (first : Nat) :
    ∀ (n s : Nat), s + n ≤ 4096 →
      List.count op_write_block ((List.range' s n).flatMap (write_ops first)) = n := by
  intro n
  induction n with
  | zero => intro s _; simp
  | succ n ih =>
    intro s h
    rw [List.range'_succ, List.flatMap_cons, List.count_append, count_write_ops first s (by omega),
      ih (s + 1) (by omega)]
    omega

/-! ### Bounds of the copies -/

/-- Bounds of the sub-range of block `k`, in the `int` arithmetic of the code. -/
theorem sub_range_bounds (addr len k : Nat) (h1 : 1 ≤ len) (h2 : len ≤ 2048)
    (h3 : addr + len ≤ 1048576) (hk1 : addr / 256 ≤ k) (hk2 : k ≤ (addr + len - 1) / 256) :
    0 ≤ start_cpy (span_of addr len) (k / 256) (k % 256)
    ∧ start_cpy (span_of addr len) (k / 256) (k % 256)
        ≤ end_cpy (span_of addr len) (k / 256) (k % 256)
    ∧ end_cpy (span_of addr len) (k / 256) (k % 256) ≤ 255
    ∧ ((min (k * 256) (addr + len) - addr : Nat) : Int)
        + (end_cpy (span_of addr len) (k / 256) (k % 256)
            - start_cpy (span_of addr len) (k / 256) (k % 256) + 1)
        = ((min ((k + 1) * 256) (addr + len) - addr : Nat) : Int) := by
  rw [span_of_eq addr len h1 h3]
  simp only [start_cpy, end_cpy, JBOD_BLOCK_SIZE, block_index_first]
  by_cases hs : k = addr / 256 <;> by_cases he : k = (addr + len - 1) / 256
  · rw [if_pos hs, if_pos he]; omega
  · rw [if_pos hs, if_neg he]; omega
  · rw [if_neg hs, if_pos he]; omega
  · rw [if_neg hs, if_neg he]; omega

/-- The running offset when the iteration of block `k` begins. -/
theorem before_block_offset (body : Nat → Nat → Loop → Loop) (addr len k : Nat) (x0 : Loop)
    (hbody : ∀ cd cb x, (body cd cb x).offset = advance (span_of addr len) cd cb x.offset)
    (h1 : 1 ≤ len) (h2 : len ≤ 2048) (h3 : addr + len ≤ 1048576) (hx : x0.offset = 0)
    (hk1 : addr / 256 ≤ k) (hk2 : k ≤ (addr + len - 1) / 256 + 1) :
    (before_block body addr k x0).offset = min (k * 256) (addr + len) - addr := by
  have h := foldl_range_inv (lin_step body (addr / 256))
    (fun j y => y.offset = min (j * 256) (addr + len) - addr)
    (k - addr / 256) (addr / 256) x0 (by simp only; omega)
    (fun j y hj1 hj2 hI => by
      simp only
      rw [lin_step_offset body _ hbody]
      exact advance_eq addr len j y.offset h1 h2 h3 hj1 (by omega) hI)
  have e : addr / 256 + (k - addr / 256) = k := by omega
  rw [e] at h
  exact h

/-- A fold over consecutive indices runs the step of index `s + m` on the state
left by the first `m` steps, and then the remaining steps. -/
theorem foldl_range_split {α : Type} (f : α → Nat → α) (x : α) (s m n : Nat) (h : m < n) :
    List.foldl f x (List.range' s n)
      = List.foldl f (f (List.foldl f x (List.range' s m)) (s + m))
          (List.range' (s + m + 1) (n - m - 1)) := by
  have e : n = (n - m - 1 + 1) + m := by omega
  rw [e, ← List.range'_append_1, List.foldl_append, List.range'_succ, List.foldl_cons]
  have e2 : n - m - 1 + 1 + m - m - 1 = n - m - 1 := by omega
  rw [e2]

/-- Bounds of the copy of block `k` for a loop body that advances the offset
as both transfer functions do. -/
theorem block_copy_bounds (body : Nat → Nat → Loop → Loop) (addr len k : Nat) (x0 : Loop)
    (hbody : ∀ cd cb x, (body cd cb x).offset = advance (span_of addr len) cd cb x.offset)
    (h1 : 1 ≤ len) (h2 : len ≤ 2048) (h3 : addr + len ≤ 1048576) (hx : x0.offset = 0)
    (hk1 : addr / 256 ≤ k) (hk2 : k ≤ (addr + len - 1) / 256) :
    ((before_block body addr k x0).offset : Int)
        + (end_cpy (span_of addr len) (k / 256) (k % 256)
            - start_cpy (span_of addr len) (k / 256) (k % 256) + 1) ≤ (len : Int)
    ∧ (before_block body addr k x0).offset + sub_len (span_of addr len) (k / 256) (k % 256)
        ≤ len
    ∧ (start_cpy (span_of addr len) (k / 256) (k % 256)).toNat
        + sub_len (span_of addr len) (k / 256) (k % 256) ≤ 256
    ∧ advance (span_of addr len) (k / 256) (k % 256) (before_block body addr k x0).offset
        = (before_block body addr k x0).offset
            + sub_len (span_of addr len) (k / 256) (k % 256) := by
  have hoff := before_block_offset body addr len k x0 hbody h1 h2 h3 hx hk1 (by omega)
  have hadv := advance_eq addr len k _ h1 h2 h3 hk1 hk2 hoff
  obtain ⟨hs, hn⟩ := sub_range_eq addr len k h1 h2 h3 hk1 hk2
  obtain ⟨_, _, _, hsum⟩ := sub_range_bounds addr len k h1 h2 h3 hk1 hk2
  obtain ⟨hb1, hb2⟩ := range_bounds addr len k hk1 hk2
  rw [hadv, hs, hn, hoff, hsum]
  clear hadv hs hn hoff hsum hk1 hk2 hbody
  refine ⟨?_, ?_, ?_, ?_⟩ <;> omega

/-! ### Unoccupied entries and the precheck of a lookup -/

theorem free_keys_zero_tags (c1 c2 : List cache_entry_t) (h : c1.map tag = c2.map tag)
    (h2 : free_keys_zero c2) : free_keys_zero c1 := by
  intro p hp hv
  have hm : tag p ∈ c2.map tag := by
    rw [← h]
    exact List.mem_map_of_mem tag hp
  obtain ⟨q, hq, e⟩ := List.mem_map.1 hm
  have e1 : q.valid = p.valid := congrArg (fun t => t.1) e
  have e2 : q.disk_num = p.disk_num := congrArg (fun t => t.2.1) e
  have e3 : q.block_num = p.block_num := congrArg (fun t => t.2.2) e
  have := h2 q hq (by rw [e1]; exact hv)
  rw [e2, e3] at this
  exact this

/-- In every reachable state the unoccupied entries have key fields (0, 0). -/
theorem cache_reachable_free_keys (st : State) (h : cache_reachable st) :
    ∀ es, st.cache = some es → free_keys_zero es := by
  induction h with
  | create st n hn =>
    intro es hes
    rw [cache_create_cache st n hn] at hes
    injection hes with hes
    subst hes
    intro p hp _
    rw [(List.mem_replicate.1 hp).2]
    exact ⟨rfl, rfl⟩
  | lookup st d b buf hr ih =>
    intro es hes
    obtain ⟨c, hc, _, _⟩ := cache_reachable_inv st hr
    obtain ⟨c1, e1, e2⟩ := cache_lookup_tags st d b buf c hc
    rw [e1] at hes
    injection hes with hes
    subst hes
    exact free_keys_zero_tags c1 c e2 (ih c hc)
  | insert st d b buf hr ih =>
    intro es hes
    obtain ⟨c, hc, _, _⟩ := cache_reachable_inv st hr
    rcases cache_insert_cases st d b buf c hc with e | ⟨content, pre, q, post, e1, _, _, e4⟩
    · rw [e] at hes
      injection hes with hes
      subst hes
      exact ih c hc
    · rw [e4] at hes
      injection hes with hes
      subst hes
      have hold := ih c hc
      subst e1
      intro p hp hv
      rcases List.mem_append.1 hp with h1 | h1
      · exact hold p (by simp [h1]) hv
      · rcases List.mem_cons.1 h1 with h2 | h2
        · subst h2
          simp [fill_entry] at hv
        · exact hold p (by simp [h2]) hv
  | update st d b buf hr ih =>
    intro es hes
    obtain ⟨c, hc, _, _⟩ := cache_reachable_inv st hr
    obtain ⟨c1, e1, e2⟩ := cache_update_tags st d b buf c hc
    rw [e1] at hes
    injection hes with hes
    subst hes
    exact free_keys_zero_tags c1 c e2 (ih c hc)

theorem lookup_precheck_values (st : State) (d b : Int) (buf : Option Block) :
    (lookup_precheck st d b buf = -1 ∨ lookup_precheck st d b buf = 1)
    ∧ (lookup_precheck st d b buf = -1 ↔
        (st.cache = none
          ∨ (∃ es, st.cache = some es ∧ (es.headD calloc_entry).valid = false)
          ∨ buf.isNone = true
          ∨ (d < 0 ∨ d ≥ JBOD_NUM_DISKS) ∨ (b < 0 ∨ b ≥ JBOD_BLOCK_SIZE))) := by
  cases hc : st.cache with
  | none => simp [lookup_precheck, hc]
  | some es =>
    simp only [lookup_precheck, hc]
    by_cases h1 : (es.headD calloc_entry).valid = false
    · rw [if_pos h1]
      exact ⟨Or.inl rfl, fun _ => Or.inr (Or.inl ⟨es, rfl, h1⟩), fun _ => rfl⟩
    · rw [if_neg h1]
      by_cases h2 : buf.isNone = true
      · rw [if_pos h2]
        exact ⟨Or.inl rfl, fun _ => Or.inr (Or.inr (Or.inl h2)), fun _ => rfl⟩
      · rw [if_neg h2]
        by_cases h3 : d < 0 ∨ d ≥ (JBOD_NUM_DISKS : Int)
        · rw [if_pos h3]
          exact ⟨Or.inl rfl, fun _ => Or.inr (Or.inr (Or.inr (Or.inl h3))), fun _ => rfl⟩
        · rw [if_neg h3]
          by_cases h4 : b < 0 ∨ b ≥ (JBOD_BLOCK_SIZE : Int)
          · rw [if_pos h4]
            exact ⟨Or.inl rfl, fun _ => Or.inr (Or.inr (Or.inr (Or.inr h4))), fun _ => rfl⟩
          · rw [if_neg h4]
            refine ⟨Or.inr rfl, fun h => absurd h (by decide), ?_⟩
            intro h
            rcases h with h | ⟨es1, he, hv⟩ | h | h | h
            · exact absurd h (by simp)
            · injection he with he
              subst he
              exact absurd hv h1
            · exact absurd h h2
            · exact absurd h h3
            · exact absurd h h4

/-! ### Claims -/

/-- C1 (round trip), evaluated where it fails. In the state reached by
`cache_create(2)`, `mdadm_mount()`, `mdadm_write_permission()` and one write of
the byte 1 at address 0, the session is mounted and write-permitted and the
cache enabled; `mdadm_write(0, 1, {2})` succeeds and stores 2 in the array, yet
the following `mdadm_read(0, 1, buf)` succeeds with `buf[0] = 1`: the block was
cached, and the cache kept the old content. -/
theorem round_trip_stale_on_cached_block :
    demo_once.is_mounted = 1 ∧ demo_once.is_written = 1 ∧ cache_enabled demo_once = true
    ∧ (mdadm_write demo_once 0 1 (some fun _ => 2)).1 = 1
    ∧ (mdadm_read (mdadm_write demo_once 0 1 (some fun _ => 2)).2 0 1 (some zero_block)).1 = 1
    ∧ ((mdadm_read (mdadm_write demo_once 0 1 (some fun _ => 2)).2 0 1
          (some zero_block)).2.2.getD zero_block) 0 = 1
    ∧ (mdadm_write demo_once 0 1 (some fun _ => 2)).2.jbod.store 0 0 0 = 2 := by
  decide

/-- C2 (write-through coherence), evaluated where it fails. After
`cache_create(2)` and two successful one-byte writes at address 0, of 1 and
then of 2, entry 0 of the cache is valid with key (disk 0, block 0) and its
content starts with 1, while block (0, 0) of the array starts with 2. -/
theorem cached_block_stale_after_write :
    (cache_create demo_start 2).1 = 1
    ∧ (mdadm_write demo_ready 0 1 (some fun _ => 1)).1 = 1
    ∧ (mdadm_write demo_once 0 1 (some fun _ => 2)).1 = 1
    ∧ (entry demo_twice 0).valid = true
    ∧ (entry demo_twice 0).disk_num = 0 ∧ (entry demo_twice 0).block_num = 0
    ∧ (entry demo_twice 0).block 0 = 1
    ∧ demo_twice.jbod.store 0 0 0 = 2 := by
  decide

/-- C3 (address translation of read). On a mounted session with the cache
disabled and a server that is up, for `1 <= len <= 2048` and
`addr + len <= D * S`, `mdadm_read(addr, len, buf)` returns `len`, sets
`buf[i]` for every `i < len` to the byte stored at disk `(addr + i) / S`, block
`((addr + i) mod S) / K`, index `(addr + i) mod K`, leaves the stored bytes as
they were, and the commands it issues are those of `read_trace addr len`: the
touched blocks in increasing linear order, a disk seek before the first block
of the transfer and of each disk, a block seek and a read for every block. -/
theorem read_address_translation (st : State) (addr len : Nat) (b : Buf)
    (hm : st.is_mounted ≠ 0) (hc : cache_enabled st = false) (hup : st.jbod.up = true)
    (h1 : 1 ≤ len) (h2 : len ≤ 2048) (h3 : addr + len ≤ JBOD_NUM_DISKS * JBOD_DISK_SIZE) :
    ∃ st1 b1, mdadm_read st addr len (some b) = ((len : Int), st1, some b1)
      ∧ (∀ i, i < len →
          b1 i = st.jbod.store ((addr + i) / JBOD_DISK_SIZE)
                   ((addr + i) % JBOD_DISK_SIZE / JBOD_BLOCK_SIZE) ((addr + i) % JBOD_BLOCK_SIZE))
      ∧ st1.jbod.trace = st.jbod.trace ++ read_trace addr len
      ∧ st1.jbod.store = st.jbod.store := by
  have h3a : addr + len ≤ 1048576 := h3
  rw [mdadm_read_eq st addr len b hm h1 h2 h3a]
  have h := read_fold_inv st b addr len hc hup h1 h2 h3a
  simp only
  generalize List.foldl (lin_step (read_block (span_of addr len)) (addr / 256))
    { st := st, buf := b, offset := 0 }
    (List.range' (addr / 256) ((addr + len - 1) / 256 + 1 - addr / 256)) = x at h
  obtain ⟨_, _, _, _, _, _, hstore, hoff, hlt, _, _, htrace⟩ := h
  rw [final_offset addr len h1] at hoff
  refine ⟨x.st, x.buf, ?_, ?_, ?_, hstore⟩
  · rw [hoff]
  · intro i hi
    simp only [JBOD_DISK_SIZE, JBOD_BLOCK_SIZE]
    exact hlt i (by rw [hoff]; exact hi)
  · rw [htrace]
    simp [read_trace, JBOD_BLOCK_SIZE]

/-- Witness of C3: 300 bytes from address `S - 50`, a range that crosses a
block boundary and the boundary between disk 0 and disk 1. -/
theorem read_address_translation_witness :
    (mdadm_mount demo_start).2.is_mounted ≠ 0
    ∧ cache_enabled (mdadm_mount demo_start).2 = false
    ∧ (mdadm_mount demo_start).2.jbod.up = true
    ∧ 1 ≤ 300 ∧ 300 ≤ 2048 ∧ 65486 + 300 ≤ JBOD_NUM_DISKS * JBOD_DISK_SIZE
    ∧ ∃ st1 b1, mdadm_read (mdadm_mount demo_start).2 65486 300 (some zero_block)
          = (((300 : Nat) : Int), st1, some b1)
        ∧ (∀ i, i < 300 →
            b1 i = (mdadm_mount demo_start).2.jbod.store ((65486 + i) / JBOD_DISK_SIZE)
              ((65486 + i) % JBOD_DISK_SIZE / JBOD_BLOCK_SIZE) ((65486 + i) % JBOD_BLOCK_SIZE))
        ∧ st1.jbod.trace = (mdadm_mount demo_start).2.jbod.trace ++ read_trace 65486 300
        ∧ st1.jbod.store = (mdadm_mount demo_start).2.jbod.store :=
  ⟨by decide, by decide, by decide, by decide, by decide, by decide,
   read_address_translation (mdadm_mount demo_start).2 65486 300 zero_block
     (by decide) (by decide) (by decide) (by decide) (by decide) (by decide)⟩

/-- C4 (bytes transferred). On a mounted session, for a present buffer,
`1 <= len <= 2048` and `addr + len <= D * S`, `mdadm_read` returns exactly
`len`, and so does `mdadm_write` when writing is permitted, whatever the cache
and the server do: the sub-range lengths added to the running offset sum to
`len`. -/
theorem bytes_transferred (st : State) (addr len : Nat) (b : Buf) (hm : st.is_mounted ≠ 0)
    (h1 : 1 ≤ len) (h2 : len ≤ 2048) (h3 : addr + len ≤ JBOD_NUM_DISKS * JBOD_DISK_SIZE) :
    (mdadm_read st addr len (some b)).1 = (len : Int)
    ∧ (st.is_written ≠ 0 → (mdadm_write st addr len (some b)).1 = (len : Int)) := by
  have h3a : addr + len ≤ 1048576 := h3
  have hl : len ≠ 0 := by omega
  constructor
  · simp only [mdadm_read, read_precheck_ok st addr len b hm h2 h3a, JBOD_NO_ERROR, if_true,
      if_neg hl]
    rw [transfer_offset (read_block (span_of addr len)) addr len _
      (read_block_offset _) h1 h2 h3a rfl]
  · intro hw
    simp only [mdadm_write, write_precheck_ok st addr len b hm hw h2 h3a, JBOD_NO_ERROR, if_true,
      if_neg hl]
    rw [transfer_offset (write_block (span_of addr len)) addr len _
      (write_block_offset _) h1 h2 h3a rfl]

/-- Witness of C4: 2048 bytes ending at the last address of the array, with
the cache enabled. -/
theorem bytes_transferred_witness :
    demo_ready.is_mounted ≠ 0 ∧ 1 ≤ 2048 ∧ 2048 ≤ 2048
    ∧ 1046528 + 2048 ≤ JBOD_NUM_DISKS * JBOD_DISK_SIZE
    ∧ (mdadm_read demo_ready 1046528 2048 (some zero_block)).1 = ((2048 : Nat) : Int)
    ∧ (demo_ready.is_written ≠ 0 →
        (mdadm_write demo_ready 1046528 2048 (some zero_block)).1 = ((2048 : Nat) : Int)) :=
  ⟨by decide, by decide, by decide, by decide,
   bytes_transferred demo_ready 1046528 2048 zero_block (by decide) (by decide) (by decide)
     (by decide)⟩

/-- C5 (out-of-range rejection), evaluated where it fails. On a mounted,
write-permitted session with a present buffer, the range that starts at
address 2^32 - 1 with length 2 is not inside `[0, D * S)`, yet `mdadm_read` and
`mdadm_write` return 0; with length 1 they return 1. The sum `addr + len`
wraps to a small value and passes the range test of the prechecks. -/
theorem wrapped_range_accepted :
    demo_ready.is_mounted = 1 ∧ demo_ready.is_written = 1
    ∧ ¬ (4294967295 + 2 ≤ JBOD_NUM_DISKS * JBOD_DISK_SIZE)
    ∧ (mdadm_read demo_ready 4294967295 2 (some zero_block)).1 = 0
    ∧ (mdadm_write demo_ready 4294967295 2 (some zero_block)).1 = 0
    ∧ (mdadm_read demo_ready 4294967295 1 (some zero_block)).1 = 1
    ∧ (mdadm_write demo_ready 4294967295 1 (some zero_block)).1 = 1 := by
  decide

/-- Out-of-range requests whose end `addr + len` does not wrap are rejected:
for `len > 0` and `D * S < addr + len < 2^32`, `mdadm_read` and `mdadm_write`
return -1 and change nothing, in every session state and for every buffer. -/
theorem out_of_range_rejected_without_wrap (st : State) (addr len : Nat) (buf : Option Buf)
    (h1 : 0 < len) (h2 : JBOD_NUM_DISKS * JBOD_DISK_SIZE < addr + len)
    (h3 : addr + len < 4294967296) :
    mdadm_read st addr len buf = (-1, st, buf) ∧ mdadm_write st addr len buf = (-1, st) := by
  have h2a : 1048576 < addr + len := h2
  have hu : u32 (addr + len) = addr + len := by simp only [u32]; omega
  have hl : len ≠ 0 := by omega
  have hle : ¬ addr + len ≤ JBOD_DISK_SIZE * JBOD_NUM_DISKS := by
    simp only [JBOD_DISK_SIZE, JBOD_NUM_DISKS]; omega
  have hloc : (get_loc (addr + len)).1 ≠ JBOD_NO_ERROR := by
    have hd : ¬ (0 ≤ (addr + len) / 65536 ∧ (addr + len) / 65536 < 16) := by omega
    simp only [get_loc, JBOD_DISK_SIZE, JBOD_NUM_DISKS, if_neg hd]
    decide
  have hr : read_precheck st addr len buf = -1 := by
    simp only [read_precheck, hu, if_neg hl, if_neg hle, if_pos hloc]
    split <;> [rfl; split] <;> [rfl; split] <;> rfl
  have hw : write_precheck st addr len buf = -1 := by
    simp only [write_precheck, hu, if_neg hl, if_neg hle, if_pos hloc]
    split <;> [rfl; split] <;> [rfl; split] <;> [rfl; split] <;> rfl
  exact ⟨by simp [mdadm_read, hr, JBOD_NO_ERROR], by simp [mdadm_write, hw, JBOD_NO_ERROR]⟩

/-- C6 (oversized request rejection). For every state, address and buffer and
every `len > 2048`, `mdadm_read` and `mdadm_write` return -1 and change nothing;
in particular no command reaches the server. -/
theorem oversized_request_rejected (st : State) (addr len : Nat) (buf : Option Buf)
    (h : len > 2048) :
    mdadm_read st addr len buf = (-1, st, buf) ∧ mdadm_write st addr len buf = (-1, st)
    ∧ (mdadm_read st addr len buf).2.1.jbod.trace = st.jbod.trace
    ∧ (mdadm_write st addr len buf).2.jbod.trace = st.jbod.trace := by
  have hr : read_precheck st addr len buf = -1 := by
    simp only [read_precheck, if_pos h]
    split <;> rfl
  have hw : write_precheck st addr len buf = -1 := by
    simp only [write_precheck, if_pos h]
    split <;> [rfl; split] <;> rfl
  have e1 : mdadm_read st addr len buf = (-1, st, buf) := by
    simp [mdadm_read, hr, JBOD_NO_ERROR]
  have e2 : mdadm_write st addr len buf = (-1, st) := by
    simp [mdadm_write, hw, JBOD_NO_ERROR]
  rw [e1, e2]
  exact ⟨rfl, rfl, rfl, rfl⟩

/-- Witness of C6: 2049 bytes at address 5 on a mounted, write-permitted
session. -/
theorem oversized_request_rejected_witness :
    (2049 : Nat) > 2048
    ∧ mdadm_read demo_ready 5 2049 (some zero_block) = (-1, demo_ready, some zero_block)
    ∧ mdadm_write demo_ready 5 2049 (some zero_block) = (-1, demo_ready) :=
  ⟨by decide,
   (oversized_request_rejected demo_ready 5 2049 (some zero_block) (by decide)).1,
   (oversized_request_rejected demo_ready 5 2049 (some zero_block) (by decide)).2.1⟩

/-- C7 as stated fails: on a mounted, write-permitted session, a zero-length
read or write with a present buffer at address `D * S + 1` returns -1. -/
theorem zero_length_beyond_end_rejected :
    demo_ready.is_mounted = 1 ∧ demo_ready.is_written = 1
    ∧ (mdadm_read demo_ready 1048577 0 (some zero_block)).1 = -1
    ∧ (mdadm_write demo_ready 1048577 0 (some zero_block)).1 = -1 := by
  decide

/-- C7 (zero-length no-op), amended. On a mounted session, for every 32-bit
address, `mdadm_read(addr, 0, buf)` changes nothing and returns 0 when the
buffer is absent or `addr <= D * S`, and -1 otherwise; the same holds for
`mdadm_write` when writing is permitted. -/
theorem zero_length_noop (st : State) (addr : Nat) (buf : Option Buf)
    (hm : st.is_mounted ≠ 0) (ha : addr < 4294967296) :
    mdadm_read st addr 0 buf
      = ((if buf.isNone = true ∨ addr ≤ JBOD_NUM_DISKS * JBOD_DISK_SIZE then 0 else -1), st, buf)
    ∧ (st.is_written ≠ 0 → mdadm_write st addr 0 buf
      = ((if buf.isNone = true ∨ addr ≤ JBOD_NUM_DISKS * JBOD_DISK_SIZE then 0 else -1), st)) := by
  have hu : u32 (addr + 0) = addr := by simp only [u32]; omega
  by_cases hb : buf.isNone = true ∨ addr ≤ JBOD_NUM_DISKS * JBOD_DISK_SIZE
  · have hrw : ∀ x : Int, (if buf.isNone = true ∨ addr ≤ JBOD_NUM_DISKS * JBOD_DISK_SIZE
        then (0 : Int) else x) = 0 := fun x => if_pos hb
    have hr : read_precheck st addr 0 buf = 0 := by
      simp only [read_precheck, if_neg hm, hu]
      rcases hb with hb | hb
      · simp [hb]
      · simp [JBOD_NUM_DISKS, JBOD_DISK_SIZE] at hb ⊢
        simp [hb]
    refine ⟨by simp [mdadm_read, hr, JBOD_NO_ERROR, hrw], ?_⟩
    intro hw
    have hwp : write_precheck st addr 0 buf = 0 := by
      simp only [write_precheck, if_neg hm, if_neg hw, hu]
      rcases hb with hb | hb
      · simp [hb]
      · simp [JBOD_NUM_DISKS, JBOD_DISK_SIZE] at hb ⊢
        simp [hb]
    simp [mdadm_write, hwp, JBOD_NO_ERROR, hrw]
  · have hrw : ∀ x : Int, (if buf.isNone = true ∨ addr ≤ JBOD_NUM_DISKS * JBOD_DISK_SIZE
        then (0 : Int) else x) = x := fun x => if_neg hb
    have hb1 : ¬ buf.isNone = true := fun h => hb (Or.inl h)
    have hb2 : ¬ addr ≤ 1048576 := fun h => hb (Or.inr h)
    have hloc : (get_loc addr).1 ≠ JBOD_NO_ERROR := by
      have hd : ¬ (0 ≤ addr / 65536 ∧ addr / 65536 < 16) := by omega
      simp only [get_loc, JBOD_DISK_SIZE, JBOD_NUM_DISKS, if_neg hd]
      decide
    have hr : read_precheck st addr 0 buf = -1 := by
      have hb3 : ¬ addr ≤ JBOD_DISK_SIZE * JBOD_NUM_DISKS := hb2
      simp only [read_precheck, if_neg hm, hu, if_neg hb1, if_neg hb3, if_pos hloc]
      simp
    refine ⟨by simp [mdadm_read, hr, JBOD_NO_ERROR, hrw], ?_⟩
    intro hw
    have hwp : write_precheck st addr 0 buf = -1 := by
      have hb3 : ¬ addr ≤ JBOD_DISK_SIZE * JBOD_NUM_DISKS := hb2
      simp only [write_precheck, if_neg hm, if_neg hw, hu, if_neg hb1, if_neg hb3, if_pos hloc]
      simp
    simp [mdadm_write, hwp, JBOD_NO_ERROR, hrw]

/-- Witness of the amended C7: the last 32-bit address with an absent buffer. -/
theorem zero_length_noop_witness :
    demo_ready.is_mounted ≠ 0 ∧ (4294967295 : Nat) < 4294967296
    ∧ mdadm_read demo_ready 4294967295 0 none = (0, demo_ready, none) :=
  ⟨by decide, by decide,
   (zero_length_noop demo_ready 4294967295 none (by decide) (by decide)).1⟩

/-- C8 (write gating). Whenever `is_written` is 0, for every address, length
and buffer, `mdadm_write` returns -1 and changes nothing: no command reaches
the server, and the stored bytes, the cache and both session flags are as
before. -/
theorem write_gated (st : State) (addr len : Nat) (buf : Option Buf) (h : st.is_written = 0) :
    mdadm_write st addr len buf = (-1, st)
    ∧ (mdadm_write st addr len buf).2.jbod.trace = st.jbod.trace
    ∧ (mdadm_write st addr len buf).2.jbod.store = st.jbod.store
    ∧ (mdadm_write st addr len buf).2.cache = st.cache
    ∧ (mdadm_write st addr len buf).2.is_mounted = st.is_mounted
    ∧ (mdadm_write st addr len buf).2.is_written = st.is_written := by
  have hw : write_precheck st addr len buf = -1 := by
    simp only [write_precheck, if_pos h]
    split <;> rfl
  have e2 : mdadm_write st addr len buf = (-1, st) := by
    simp [mdadm_write, hw, JBOD_NO_ERROR]
  rw [e2]
  exact ⟨rfl, rfl, rfl, rfl, rfl, rfl⟩

/-- Witness of C8: a mounted session that was never granted write permission. -/
theorem write_gated_witness :
    (mdadm_mount demo_start).2.is_written = 0
    ∧ mdadm_write (mdadm_mount demo_start).2 0 16 (some zero_block)
        = (-1, (mdadm_mount demo_start).2) :=
  ⟨by decide, (write_gated (mdadm_mount demo_start).2 0 16 (some zero_block) (by decide)).1⟩

/-- C9 (LFU eviction), evaluated where it fails. In a full cache of two valid
entries with access counts 2 (entry 0) and 1 (entry 1), a successful
`cache_insert` of the new key (0, 2) overwrites entry 0, the entry with the
larger count, and leaves entry 1, the least frequently used one, in place. -/
theorem eviction_takes_first_entry :
    (entry lfu_used 0).valid = true ∧ (entry lfu_used 1).valid = true
    ∧ cache_size lfu_used = 2
    ∧ (entry lfu_used 0).num_accesses = 2 ∧ (entry lfu_used 1).num_accesses = 1
    ∧ (cache_insert lfu_used 0 2 (some fun _ => 12)).1 = 1
    ∧ (entry lfu_third 0).block_num = 2 ∧ (entry lfu_third 0).num_accesses = 1
    ∧ (entry lfu_third 1).block_num = 1 ∧ (entry lfu_third 1).block 0 = 11 := by
  decide

/-- C10 (insert then lookup). In every state whose cache has at least one
entry, when `cache_insert(disk, block, content)` succeeds the cache holds a
valid entry `q` with that key, access count 1 and the K bytes of `content`, and
an immediately following `cache_lookup(disk, block, out)` reports a hit (1),
fills the K bytes of `out` with `content`, raises the access count of `q` to 2
and leaves every other entry as it was, whether the insert filled a free entry
or evicted one. -/
theorem insert_then_lookup (st st1 : State) (d b : Int) (content out : Block)
    (hsz : 0 < cache_size st) (h : cache_insert st d b (some content) = (1, st1)) :
    ∃ pre q post, st1.cache = some (pre ++ q :: post)
      ∧ q.valid = true ∧ q.disk_num = d ∧ q.block_num = b ∧ q.num_accesses = 1
      ∧ (∀ i, i < JBOD_BLOCK_SIZE → q.block i = content i)
      ∧ cache_lookup st1 d b (some out)
          = (1, { st1 with cache := some (pre ++ { q with num_accesses := 2 } :: post),
                           num_hits := st1.num_hits + 1,
                           num_queries := st1.num_queries + 1 },
             some (memcpy out 0 q.block 0 JBOD_BLOCK_SIZE))
      ∧ (∀ i, i < JBOD_BLOCK_SIZE → memcpy out 0 q.block 0 JBOD_BLOCK_SIZE i = content i) := by
  cases hc : st.cache with
  | none => simp [cache_size, hc] at hsz
  | some c =>
    by_cases hpre : insert_precheck st d b (some content) = -1
    · simp [cache_insert, hpre] at h
    · obtain ⟨hd, hb, hdup⟩ := insert_precheck_ok st d b content c hc hpre
      have hfill : ∀ (p : cache_entry_t) (i : Nat), i < JBOD_BLOCK_SIZE →
          (fill_entry p d b content).block i = content i := by
        intro p i hi
        simp only [fill_entry, memcpy]
        rw [if_pos (by omega)]
        simp
      have hout : ∀ (p : cache_entry_t) (i : Nat), i < JBOD_BLOCK_SIZE →
          memcpy out 0 (fill_entry p d b content).block 0 JBOD_BLOCK_SIZE i = content i := by
        intro p i hi
        have e := hfill p i hi
        simp only [memcpy] at e ⊢
        rw [if_pos (by omega)]
        simpa using e
      simp only [cache_insert, if_neg hpre, hc] at h
      cases hscan : insert_scan d b content c 0 0 0 with
      | inl c1 =>
        rw [hscan] at h
        obtain ⟨pre, q, post, e1, e2, _, e4⟩ := insert_scan_inl d b content c 0 0 0 c1 hscan
        have hst1 : st1 = { st with cache := some c1 } := by
          injection h with _ h2
          exact h2.symm
        have hc1 : st1.cache = some (pre ++ fill_entry q d b content :: post) := by
          rw [hst1, e4]
        refine ⟨pre, fill_entry q d b content, post, hc1, rfl, rfl, rfl, rfl, hfill q, ?_,
          hout q⟩
        rw [cache_lookup_hit st1 d b out pre post _ hc1 hd hb ⟨rfl, rfl, rfl⟩]
        · rfl
        · intro p hp
          refine ⟨e2 p hp, ?_⟩
          exact has_valid_key_false d b c hdup p (by rw [e1]; simp [hp]) (e2 p hp)
      | inr o =>
        rw [hscan] at h
        obtain ⟨_, e2⟩ := insert_scan_inr d b content c 0 0 0 o hscan (Int.le_refl 0)
        subst e2
        cases c with
        | nil => simp [cache_size, hc] at hsz
        | cons q0 post =>
          have hst1 : st1 = { st with cache := some (fill_entry q0 d b content :: post) } := by
            injection h with _ h2
            exact h2.symm
          have hc1 : st1.cache = some ([] ++ fill_entry q0 d b content :: post) := by
            rw [hst1]; rfl
          refine ⟨[], fill_entry q0 d b content, post, hc1, rfl, rfl, rfl, rfl, hfill q0, ?_,
            hout q0⟩
          rw [cache_lookup_hit st1 d b out [] post _ hc1 hd hb ⟨rfl, rfl, rfl⟩]
          · rfl
          · intro p hp
            simp at hp

/-- Witness of C10: block (3, 4) inserted into a fresh cache of two entries. -/
theorem insert_then_lookup_witness :
    0 < cache_size (cache_create (init_state fun _ _ _ => 7) 2).2
    ∧ ∃ pre q post,
        (cache_insert (cache_create (init_state fun _ _ _ => 7) 2).2 3 4 (some fun i => i)).2.cache
          = some (pre ++ q :: post)
        ∧ q.num_accesses = 1 :=
  ⟨by decide,
   by
    obtain ⟨pre, q, post, h1, _, _, _, h5, _⟩ :=
      insert_then_lookup (cache_create (init_state fun _ _ _ => 7) 2).2
        (cache_insert (cache_create (init_state fun _ _ _ => 7) 2).2 3 4 (some fun i => i)).2
        3 4 (fun i => i) zero_block (by decide) rfl
    exact ⟨pre, q, post, h1, h5⟩⟩

/-- C11 (duplicate insert is an atomic failure). In every state, when some entry
of the cache is valid with key (disk, block), `cache_insert(disk, block, buf)`
returns -1 and changes nothing: every entry (valid flag, key, content, access
count) and both counters are as before, whatever the buffer. -/
theorem duplicate_insert_rejected (st : State) (d b : Int) (buf : Option Block)
    (es : List cache_entry_t) (i : Nat) (p : cache_entry_t) (hc : st.cache = some es)
    (hp : es[i]? = some p) (hv : p.valid = true) (hd : p.disk_num = d) (hb : p.block_num = b) :
    cache_insert st d b buf = (-1, st) := by
  have hdup : has_valid_key d b es = true := by
    cases hk : has_valid_key d b es with
    | true => rfl
    | false =>
      exact absurd ⟨hd, hb⟩ (has_valid_key_false d b es hk p (List.getElem?_mem hp) hv)
  have hpre : insert_precheck st d b buf = -1 := by
    simp only [insert_precheck, hc, hdup, if_true]
    split <;> [rfl; split] <;> [rfl; split] <;> rfl
  simp [cache_insert, hpre]

/-- Witness of C11: block (0, 1) inserted again into a cache that holds it. -/
theorem duplicate_insert_rejected_witness :
    lfu_two.cache = some (lfu_two.cache.getD [])
    ∧ (lfu_two.cache.getD [])[1]? = some (entry lfu_two 1)
    ∧ (entry lfu_two 1).valid = true
    ∧ (entry lfu_two 1).disk_num = 0 ∧ (entry lfu_two 1).block_num = 1
    ∧ cache_insert lfu_two 0 1 (some zero_block) = (-1, lfu_two) :=
  ⟨rfl, rfl, by decide, by decide, by decide,
   duplicate_insert_rejected lfu_two 0 1 (some zero_block) (lfu_two.cache.getD []) 1
     (entry lfu_two 1) rfl rfl (by decide) (by decide) (by decide)⟩

/-- C12 (cache lifecycle). `cache_create(n)` returns 1 exactly when no cache
exists and `2 <= n <= 4096`, and otherwise returns -1 and changes nothing; on
success the cache has `n` entries, all invalid, and both counters are 0.
`cache_destroy` returns 1 exactly when a cache exists, removing it, and
otherwise returns -1 and changes nothing. Hence a second `cache_create` after a
successful one fails, and so does a second `cache_destroy`. -/
theorem cache_lifecycle (st : State) (n : Int) :
    ((cache_create st n).1 = 1 ↔ (st.cache = none ∧ 2 ≤ n ∧ n ≤ 4096))
    ∧ ((cache_create st n).1 ≠ 1 → cache_create st n = (-1, st))
    ∧ ((cache_create st n).1 = 1 →
        (cache_create st n).2.cache = some (List.replicate n.toNat calloc_entry)
        ∧ cache_size (cache_create st n).2 = n.toNat
        ∧ (∀ (i : Nat) (p : cache_entry_t),
            ((cache_create st n).2.cache.getD [])[i]? = some p → p.valid = false)
        ∧ (cache_create st n).2.num_queries = 0 ∧ (cache_create st n).2.num_hits = 0)
    ∧ ((cache_destroy st).1 = 1 ↔ st.cache ≠ none)
    ∧ ((cache_destroy st).1 ≠ 1 → cache_destroy st = (-1, st))
    ∧ ((cache_destroy st).1 = 1 → (cache_destroy st).2.cache = none)
    ∧ ((cache_create st n).1 = 1 → ∀ m, (cache_create (cache_create st n).2 m).1 = -1)
    ∧ ((cache_destroy st).1 = 1 → (cache_destroy (cache_destroy st).2).1 = -1) := by
  cases hc : st.cache with
  | some c =>
    have e1 : cache_create st n = (-1, st) := by simp [cache_create, hc]
    have e2 : cache_destroy st = (1, { st with cache := none }) := by simp [cache_destroy, hc]
    rw [e1, e2]
    refine ⟨by simp, fun _ => rfl, by simp, by simp, by simp, fun _ => rfl, by simp, ?_⟩
    intro _
    simp [cache_destroy]
  | none =>
    have e2 : cache_destroy st = (-1, st) := by simp [cache_destroy, hc]
    rw [e2]
    by_cases hn : n ≥ 2 ∧ n ≤ 4096
    · have e1 : cache_create st n
          = (1, { st with cache := some (List.replicate n.toNat calloc_entry),
                          num_queries := 0, num_hits := 0 }) := by
        simp [cache_create, hc, hn]
      rw [e1]
      refine ⟨by simp; omega, by simp, ?_, by simp, fun _ => rfl, by simp, ?_, by simp⟩
      · intro _
        refine ⟨rfl, by simp [cache_size], ?_, rfl, rfl⟩
        intro i p hp
        simp only [Option.getD_some] at hp
        have hm := List.getElem?_mem hp
        rw [(List.mem_replicate.1 hm).2]
        rfl
      · intro _ m
        simp [cache_create]
    · have e1 : cache_create st n = (-1, st) := by simp [cache_create, hc, hn]
      rw [e1]
      refine ⟨by simp; omega, fun _ => rfl, by simp, by simp, fun _ => rfl, by simp, by simp,
        by simp⟩

/-- Witness of C12: creating a cache of two entries twice. -/
theorem cache_lifecycle_witness :
    (cache_create demo_start 2).1 = 1
    ∧ (cache_create (cache_create demo_start 2).2 2).1 = -1 :=
  ⟨by decide, (cache_lifecycle demo_start 2).2.2.2.2.2.2.1 (by decide) 2⟩

/-- C13 (no duplicate keys). In every state reached from a successful
`cache_create` by `cache_lookup`, `cache_insert` and `cache_update` calls, two
valid entries at different indices never have the same (disk, block) key. -/
theorem no_duplicate_keys (st : State) (h : cache_reachable st) (es : List cache_entry_t)
    (hc : st.cache = some es) (i j : Nat) (p q : cache_entry_t) (hij : i ≠ j)
    (hp : es[i]? = some p) (hq : es[j]? = some q) (vp : p.valid = true) (vq : q.valid = true) :
    ¬ (p.disk_num = q.disk_num ∧ p.block_num = q.block_num) := by
  obtain ⟨c1, e1, hnd, _⟩ := cache_reachable_inv st h
  rw [hc] at e1
  injection e1 with e1
  subst e1
  unfold no_dup_keys at hnd
  rw [List.pairwise_iff_getElem] at hnd
  obtain ⟨hi, ei⟩ := List.getElem?_eq_some.1 hp
  obtain ⟨hj, ej⟩ := List.getElem?_eq_some.1 hq
  rcases Nat.lt_or_gt_of_ne hij with hlt | hgt
  · have := hnd i j hi hj hlt
    rw [ei, ej] at this
    exact this vp vq
  · have := hnd j i hj hi hgt
    rw [ei, ej] at this
    intro hk
    exact this vq vp ⟨hk.1.symm, hk.2.symm⟩

/-- Witness of C13: the two entries of a cache filled with blocks (0, 0) and (0, 1). -/
theorem no_duplicate_keys_witness :
    cache_reachable lfu_two ∧ (entry lfu_two 0).valid = true ∧ (entry lfu_two 1).valid = true
    ∧ ¬ ((entry lfu_two 0).disk_num = (entry lfu_two 1).disk_num
          ∧ (entry lfu_two 0).block_num = (entry lfu_two 1).block_num) :=
  ⟨lfu_two_reachable, by decide, by decide,
   no_duplicate_keys lfu_two lfu_two_reachable (lfu_two.cache.getD []) rfl 0 1
     (entry lfu_two 0) (entry lfu_two 1) (by decide) rfl rfl (by decide) (by decide)⟩

/-- C14 (session flag transitions). Each of `mdadm_mount`, `mdadm_unmount`,
`mdadm_write_permission` and `mdadm_revoke_write_permission` returns -1 and
changes nothing, so issues no command, when its flag already has the target
value. Otherwise it issues exactly its one command and never touches the other
flag; when `jbod_client_operation` answers 0 it reports success (1 for the
mount pair, 0 for the permission pair) and sets its flag to the target value,
and when the answer is not 0 it returns -1 and leaves its flag as it was. -/
theorem session_flag_transitions (st : State) :
    (st.is_mounted = 1 → mdadm_mount st = (-1, st))
    ∧ (st.is_mounted ≠ 1 →
        (mdadm_mount st).2.jbod.trace = st.jbod.trace ++ [u32 (JBOD_MOUNT <<< 12)]
        ∧ (mdadm_mount st).2.is_written = st.is_written
        ∧ ((jbod_client_operation st.jbod (u32 (JBOD_MOUNT <<< 12)) none).1 = 0 →
            (mdadm_mount st).1 = 1 ∧ (mdadm_mount st).2.is_mounted = 1)
        ∧ ((jbod_client_operation st.jbod (u32 (JBOD_MOUNT <<< 12)) none).1 ≠ 0 →
            (mdadm_mount st).1 = -1 ∧ (mdadm_mount st).2.is_mounted = st.is_mounted))
    ∧ (st.is_mounted = 0 → mdadm_unmount st = (-1, st))
    ∧ (st.is_mounted ≠ 0 →
        (mdadm_unmount st).2.jbod.trace = st.jbod.trace ++ [u32 (JBOD_UNMOUNT <<< 12)]
        ∧ (mdadm_unmount st).2.is_written = st.is_written
        ∧ ((jbod_client_operation st.jbod (u32 (JBOD_UNMOUNT <<< 12)) none).1 = 0 →
            (mdadm_unmount st).1 = 1 ∧ (mdadm_unmount st).2.is_mounted = 0)
        ∧ ((jbod_client_operation st.jbod (u32 (JBOD_UNMOUNT <<< 12)) none).1 ≠ 0 →
            (mdadm_unmount st).1 = -1 ∧ (mdadm_unmount st).2.is_mounted = st.is_mounted))
    ∧ (st.is_written = 1 → mdadm_write_permission st = (-1, st))
    ∧ (st.is_written ≠ 1 →
        (mdadm_write_permission st).2.jbod.trace
          = st.jbod.trace ++ [u32 (JBOD_WRITE_PERMISSION <<< 12)]
        ∧ (mdadm_write_permission st).2.is_mounted = st.is_mounted
        ∧ ((jbod_client_operation st.jbod (u32 (JBOD_WRITE_PERMISSION <<< 12)) none).1 = 0 →
            (mdadm_write_permission st).1 = 0 ∧ (mdadm_write_permission st).2.is_written = 1)
        ∧ ((jbod_client_operation st.jbod (u32 (JBOD_WRITE_PERMISSION <<< 12)) none).1 ≠ 0 →
            (mdadm_write_permission st).1 = -1
            ∧ (mdadm_write_permission st).2.is_written = st.is_written))
    ∧ (st.is_written = 0 → mdadm_revoke_write_permission st = (-1, st))
    ∧ (st.is_written ≠ 0 →
        (mdadm_revoke_write_permission st).2.jbod.trace
          = st.jbod.trace ++ [u32 (JBOD_REVOKE_WRITE_PERMISSION <<< 12)]
        ∧ (mdadm_revoke_write_permission st).2.is_mounted = st.is_mounted
        ∧ ((jbod_client_operation st.jbod (u32 (JBOD_REVOKE_WRITE_PERMISSION <<< 12)) none).1 = 0 →
            (mdadm_revoke_write_permission st).1 = 0
            ∧ (mdadm_revoke_write_permission st).2.is_written = 0)
        ∧ ((jbod_client_operation st.jbod (u32 (JBOD_REVOKE_WRITE_PERMISSION <<< 12)) none).1 ≠ 0 →
            (mdadm_revoke_write_permission st).1 = -1
            ∧ (mdadm_revoke_write_permission st).2.is_written = st.is_written)) := by
  have ht : ∀ op, (jbod_client_operation st.jbod op none).2.1.trace = st.jbod.trace ++ [op] := by
    intro op
    rw [jbod_client_operation_jbod, jbod_server_trace]
  refine ⟨?_, ?_, ?_, ?_, ?_, ?_, ?_, ?_⟩
  · intro h
    simp [mdadm_mount, h]
  · intro h
    simp only [mdadm_mount, if_neg h, JBOD_NO_ERROR]
    refine ⟨?_, ?_, ?_, ?_⟩
    · split <;> exact ht _
    · split <;> rfl
    · intro h0
      rw [if_pos h0]
      exact ⟨rfl, rfl⟩
    · intro h0
      rw [if_neg h0]
      exact ⟨rfl, rfl⟩
  · intro h
    simp [mdadm_unmount, h]
  · intro h
    simp only [mdadm_unmount, if_neg h, JBOD_NO_ERROR]
    refine ⟨?_, ?_, ?_, ?_⟩
    · split <;> exact ht _
    · split <;> rfl
    · intro h0
      rw [if_pos h0]
      exact ⟨rfl, rfl⟩
    · intro h0
      rw [if_neg h0]
      exact ⟨rfl, rfl⟩
  · intro h
    simp [mdadm_write_permission, h]
  · intro h
    simp only [mdadm_write_permission, if_neg h, JBOD_NO_ERROR]
    refine ⟨?_, ?_, ?_, ?_⟩
    · split <;> exact ht _
    · split <;> rfl
    · intro h0
      rw [if_pos h0]
      exact ⟨rfl, rfl⟩
    · intro h0
      rw [if_neg h0]
      exact ⟨rfl, rfl⟩
  · intro h
    simp [mdadm_revoke_write_permission, h]
  · intro h
    simp only [mdadm_revoke_write_permission, if_neg h, JBOD_NO_ERROR]
    refine ⟨?_, ?_, ?_, ?_⟩
    · split <;> exact ht _
    · split <;> rfl
    · intro h0
      rw [if_pos h0]
      exact ⟨rfl, rfl⟩
    · intro h0
      rw [if_neg h0]
      exact ⟨rfl, rfl⟩

/-- Witness of C14: a successful mount on a fresh session, and an unmount that
fails because the server fails the command. -/
theorem session_flag_transitions_witness :
    demo_start.is_mounted ≠ 1
    ∧ (jbod_client_operation demo_start.jbod (u32 (JBOD_MOUNT <<< 12)) none).1 = 0
    ∧ (mdadm_mount demo_start).1 = 1 ∧ (mdadm_mount demo_start).2.is_mounted = 1
    ∧ demo_down.is_mounted ≠ 0
    ∧ (jbod_client_operation demo_down.jbod (u32 (JBOD_UNMOUNT <<< 12)) none).1 ≠ 0
    ∧ (mdadm_unmount demo_down).1 = -1
    ∧ (mdadm_unmount demo_down).2.is_mounted = demo_down.is_mounted :=
  ⟨by decide, by decide,
   ((session_flag_transitions demo_start).2.1 (by decide)).2.2.1 (by decide) |>.1,
   ((session_flag_transitions demo_start).2.1 (by decide)).2.2.1 (by decide) |>.2,
   by decide, by decide,
   ((session_flag_transitions demo_down).2.2.2.1 (by decide)).2.2.2 (by decide) |>.1,
   ((session_flag_transitions demo_down).2.2.2.1 (by decide)).2.2.2 (by decide) |>.2⟩

/-- C15 as stated fails: on a mounted, write-permitted session whose server fails
every command (the first seek already returns -1), `mdadm_write(0, 1, buf)`
still issues all six commands of its block and returns 1, and
`mdadm_read(0, 1, buf)` still issues its three commands and returns 1. -/
theorem failed_command_not_fatal :
    demo_down.is_mounted = 1 ∧ demo_down.is_written = 1
    ∧ (jbod_client_operation demo_down.jbod (op_seek_to_disk 0) none).1 = -1
    ∧ (mdadm_write demo_down 0 1 (some zero_block)).1 = 1
    ∧ (mdadm_write demo_down 0 1 (some zero_block)).2.jbod.trace
        = demo_down.jbod.trace ++ [op_seek_to_disk 0, op_seek_to_block 0, op_read_block,
            op_seek_to_disk 0, op_seek_to_block 0, op_write_block]
    ∧ (mdadm_read demo_down 0 1 (some zero_block)).1 = 1
    ∧ (mdadm_read demo_down 0 1 (some zero_block)).2.1.jbod.trace
        = demo_down.jbod.trace ++ [op_seek_to_disk 0, op_seek_to_block 0, op_read_block] := by
  decide

/-- C15 (transport failure), amended. `mdadm_read` and `mdadm_write` do not look
at the result of any transport command: on a mounted session, for a present
buffer, `1 <= len <= 2048` and `addr + len <= D * S`, and for every server,
also one that fails every command, `mdadm_read` returns `len` and, with the
cache disabled, issues the full command sequence `read_trace addr len`; when
writing is permitted `mdadm_write` returns `len` and issues the full sequence
`write_trace addr len`. -/
theorem transport_results_ignored (st : State) (addr len : Nat) (b : Buf)
    (hm : st.is_mounted ≠ 0) (h1 : 1 ≤ len) (h2 : len ≤ 2048)
    (h3 : addr + len ≤ JBOD_NUM_DISKS * JBOD_DISK_SIZE) :
    (st.jbod.up = false → ∀ op block, (jbod_client_operation st.jbod op block).1 = -1)
    ∧ (mdadm_read st addr len (some b)).1 = (len : Int)
    ∧ (cache_enabled st = false →
        (mdadm_read st addr len (some b)).2.1.jbod.trace = st.jbod.trace ++ read_trace addr len)
    ∧ (st.is_written ≠ 0 →
        (mdadm_write st addr len (some b)).1 = (len : Int)
        ∧ (mdadm_write st addr len (some b)).2.jbod.trace
            = st.jbod.trace ++ write_trace addr len) := by
  have h3a : addr + len ≤ 1048576 := h3
  refine ⟨?_, mdadm_read_result st addr len b hm h1 h2 h3a,
    fun hc => read_trace_eq st addr len b hm hc h1 h2 h3a,
    fun hw => ⟨mdadm_write_result st addr len b hm hw h1 h2 h3a,
      write_trace_eq st addr len b hm hw h1 h2 h3a⟩⟩
  intro hup op block
  simp [jbod_client_operation, jbod_server, hup]

/-- Witness of the amended C15: a read of 300 bytes across a disk boundary on a
server that fails every command. -/
theorem transport_results_ignored_witness :
    demo_down.is_mounted ≠ 0 ∧ 1 ≤ 300 ∧ 300 ≤ 2048
    ∧ 65486 + 300 ≤ JBOD_NUM_DISKS * JBOD_DISK_SIZE
    ∧ demo_down.jbod.up = false
    ∧ (mdadm_read demo_down 65486 300 (some zero_block)).1 = ((300 : Nat) : Int) :=
  ⟨by decide, by decide, by decide, by decide, by decide,
   (transport_results_ignored demo_down 65486 300 zero_block (by decide) (by decide)
      (by decide) (by decide)).2.1⟩

/-- C16 (cross-disk example). With K = 256 and S = 256 * 256, on a mounted,
write-permitted session `mdadm_write(S - 50, 300, data)` returns 300 and issues
exactly: seek to disk 0, then seek/read/seek/seek/write for block 255, then
seek to disk 1 and seek/read/seek/seek/write for block 0. On a server that is
up, bytes 0..49 of the data land in the last 50 bytes of block 255 of disk 0,
bytes 50..299 in the first 250 bytes of block 0 of disk 1, and no other stored
byte changes. -/
theorem cross_disk_write (st : State) (data : Buf) (hm : st.is_mounted ≠ 0)
    (hw : st.is_written ≠ 0) :
    (mdadm_write st (JBOD_DISK_SIZE - 50) 300 (some data)).1 = 300
    ∧ (mdadm_write st (JBOD_DISK_SIZE - 50) 300 (some data)).2.jbod.trace
        = st.jbod.trace ++ [op_seek_to_disk 0, op_seek_to_block 255, op_read_block,
            op_seek_to_disk 0, op_seek_to_block 255, op_write_block,
            op_seek_to_disk 1, op_seek_to_block 0, op_read_block,
            op_seek_to_disk 1, op_seek_to_block 0, op_write_block]
    ∧ (st.jbod.up = true →
        (∀ j, j < 50 →
          (mdadm_write st (JBOD_DISK_SIZE - 50) 300 (some data)).2.jbod.store 0 255 (206 + j)
            = data j)
        ∧ (∀ j, j < 250 →
          (mdadm_write st (JBOD_DISK_SIZE - 50) 300 (some data)).2.jbod.store 1 0 j
            = data (50 + j))
        ∧ (∀ d c j, ¬ (d = 0 ∧ c = 255 ∧ 206 ≤ j ∧ j < 256) → ¬ (d = 1 ∧ c = 0 ∧ j < 250) →
          (mdadm_write st (JBOD_DISK_SIZE - 50) 300 (some data)).2.jbod.store d c j
            = st.jbod.store d c j)) := by
  have ea : JBOD_DISK_SIZE - 50 = 65486 := by decide
  rw [ea]
  have ht : write_trace 65486 300 = [op_seek_to_disk 0, op_seek_to_block 255, op_read_block,
      op_seek_to_disk 0, op_seek_to_block 255, op_write_block,
      op_seek_to_disk 1, op_seek_to_block 0, op_read_block,
      op_seek_to_disk 1, op_seek_to_block 0, op_write_block] := by decide
  refine ⟨mdadm_write_result st 65486 300 data hm hw (by omega) (by omega) (by omega), ?_, ?_⟩
  · rw [write_trace_eq st 65486 300 data hm hw (by omega) (by omega) (by omega), ht]
  · intro hup
    obtain ⟨_, hst, _⟩ := write_effect st 65486 300 data hm hw hup (by omega) (by omega)
      (by omega)
    refine ⟨?_, ?_, ?_⟩
    · intro j hj
      have e : 0 * 65536 + 255 * 256 + (206 + j) - 65486 = j := by omega
      rw [hst, if_pos (by omega), e]
    · intro j hj
      have e : 1 * 65536 + 0 * 256 + j - 65486 = 50 + j := by omega
      rw [hst, if_pos (by omega), e]
    · intro d c j n1 n2
      rw [hst, if_neg (by omega)]

/-- Witness of C16: the write on the session of `demo_ready`. -/
theorem cross_disk_write_witness :
    demo_ready.is_mounted ≠ 0 ∧ demo_ready.is_written ≠ 0
    ∧ (mdadm_write demo_ready (JBOD_DISK_SIZE - 50) 300 (some fun i => i)).1 = 300 :=
  ⟨by decide, by decide,
   (cross_disk_write demo_ready (fun i => i) (by decide) (by decide)).1⟩

/-- C17 (lookup hits only valid entries), evaluated where it fails. After
`cache_create(2)` and `cache_insert(1, 1, A)` the cache holds one valid entry,
with key (1, 1), and one unoccupied entry whose key fields are the zeros left
by the allocation; no valid entry has key (0, 0), yet `cache_lookup(0, 0, out)`
returns 1, copies the unoccupied entry's zero bytes into `out` and counts a
hit. -/
theorem lookup_hits_unoccupied_entry :
    cache_size one_cached = 2
    ∧ (entry one_cached 0).valid = true
    ∧ (entry one_cached 0).disk_num = 1 ∧ (entry one_cached 0).block_num = 1
    ∧ (entry one_cached 1).valid = false
    ∧ (entry one_cached 1).disk_num = 0 ∧ (entry one_cached 1).block_num = 0
    ∧ has_valid_key 0 0 (one_cached.cache.getD []) = false
    ∧ (cache_lookup one_cached 0 0 (some fun _ => 5)).1 = 1
    ∧ ((cache_lookup one_cached 0 0 (some fun _ => 5)).2.2.getD zero_block) 0 = 0
    ∧ (cache_lookup one_cached 0 0 (some fun _ => 5)).2.1.num_hits = 1 := by
  decide

/-- C18 (one backing-store write per touched block). On a mounted,
write-permitted session, for a present buffer, `1 <= len <= 2048` and
`addr + len <= D * S`, and for every cache state and every server, the commands
`mdadm_write` issues are those of `write_trace addr len`: for each touched block
in linear order the commands of `write_ops`. They contain as many write-block
commands as there are touched blocks, and the commands of each block end with
seek to its disk, seek to its block, write, with no write-block before. -/
theorem one_write_per_block (st : State) (addr len : Nat) (b : Buf)
    (hm : st.is_mounted ≠ 0) (hw : st.is_written ≠ 0) (h1 : 1 ≤ len) (h2 : len ≤ 2048)
    (h3 : addr + len ≤ JBOD_NUM_DISKS * JBOD_DISK_SIZE) :
    (mdadm_write st addr len (some b)).2.jbod.trace = st.jbod.trace ++ write_trace addr len
    ∧ List.count op_write_block (write_trace addr len)
        = (addr + len - 1) / JBOD_BLOCK_SIZE + 1 - addr / JBOD_BLOCK_SIZE
    ∧ (∀ k, k < JBOD_NUM_DISKS * JBOD_NUM_BLOCKS_PER_DISK →
        ∃ pre, write_ops (addr / JBOD_BLOCK_SIZE) k
            = pre ++ [op_seek_to_disk (k / JBOD_NUM_BLOCKS_PER_DISK),
                      op_seek_to_block (k % JBOD_NUM_BLOCKS_PER_DISK), op_write_block]
          ∧ List.count op_write_block pre = 0) := by
  have h3a : addr + len ≤ 1048576 := h3
  refine ⟨write_trace_eq st addr len b hm hw h1 h2 h3a, ?_, ?_⟩
  · unfold write_trace
    simp only [JBOD_BLOCK_SIZE]
    rw [count_write_ops_range]
    omega
  · intro k hk
    have hk1 : k < 4096 := hk
    have a1 := op_write_block_distinct.1 (k / 256) (by omega)
    have a2 := op_write_block_distinct.2
    have a3 := op_seek_to_block_distinct (k % 256) (by omega)
    refine ⟨(if k = addr / JBOD_BLOCK_SIZE ∨ k % JBOD_NUM_BLOCKS_PER_DISK = 0 then
        [op_seek_to_disk (k / JBOD_NUM_BLOCKS_PER_DISK)] else [])
      ++ [op_seek_to_block (k % JBOD_NUM_BLOCKS_PER_DISK), op_read_block], ?_, ?_⟩
    · unfold write_ops
      simp
    · simp only [JBOD_NUM_BLOCKS_PER_DISK]
      split <;> simp [List.count_cons, a1, a2, a3]

/-- Witness of C18: 2048 bytes from address 1000. -/
theorem one_write_per_block_witness :
    demo_ready.is_mounted ≠ 0 ∧ demo_ready.is_written ≠ 0 ∧ 1 ≤ 2048 ∧ 2048 ≤ 2048
    ∧ 1000 + 2048 ≤ JBOD_NUM_DISKS * JBOD_DISK_SIZE
    ∧ List.count op_write_block (write_trace 1000 2048)
        = (1000 + 2048 - 1) / JBOD_BLOCK_SIZE + 1 - 1000 / JBOD_BLOCK_SIZE :=
  ⟨by decide, by decide, by decide, by decide, by decide,
   (one_write_per_block demo_ready 1000 2048 zero_block (by decide) (by decide) (by decide)
      (by decide) (by decide)).2.1⟩

/-- C19 as stated fails: with one block cached, a miss (valid arguments, key
(1, 2) not cached) returns -1, and so does every precondition failure: disk or
block index out of range, absent buffer, cache without valid entry, cache not
created. -/
theorem miss_and_failure_same_result :
    (entry one_cached 0).valid = true
    ∧ (cache_lookup one_cached 1 2 (some zero_block)).1 = -1
    ∧ (cache_lookup one_cached 16 2 (some zero_block)).1 = -1
    ∧ (cache_lookup one_cached 1 256 (some zero_block)).1 = -1
    ∧ (cache_lookup one_cached 1 2 none).1 = -1
    ∧ (cache_lookup (cache_create demo_start 2).2 1 2 (some zero_block)).1 = -1
    ∧ (cache_lookup demo_start 1 2 (some zero_block)).1 = -1 := by
  decide

/-- C19 (miss versus precondition failure), amended. A precondition failure
of `cache_lookup` is: cache not created, entry 0 invalid, absent buffer, or a
disk or block index out of range. A miss is: the preconditions hold and no
entry of the array, occupied or not, carries the key. `cache_lookup` returns -1
in both cases, so the result does not tell them apart; they differ in the
globals only: a precondition failure changes nothing, a miss adds one to
`num_queries`. In a state reached from `cache_create`, every key other than
(0, 0) that no valid entry has is such a miss. -/
theorem lookup_failure_results (st : State) (d b : Int) (buf : Option Block) :
    (lookup_precheck st d b buf = -1 ↔
        (st.cache = none
          ∨ (∃ es, st.cache = some es ∧ (es.headD calloc_entry).valid = false)
          ∨ buf.isNone = true
          ∨ (d < 0 ∨ d ≥ JBOD_NUM_DISKS) ∨ (b < 0 ∨ b ≥ JBOD_BLOCK_SIZE)))
    ∧ (lookup_precheck st d b buf = -1 → cache_lookup st d b buf = (-1, st, buf))
    ∧ (lookup_precheck st d b buf ≠ -1 →
        (∀ es, st.cache = some es → ∀ p ∈ es, ¬ (p.disk_num = d ∧ p.block_num = b)) →
        cache_lookup st d b buf
          = (-1, { st with num_queries := st.num_queries + 1 }, buf))
    ∧ (cache_reachable st → lookup_precheck st d b buf ≠ -1 → (d ≠ 0 ∨ b ≠ 0) →
        has_valid_key d b (st.cache.getD []) = false →
        cache_lookup st d b buf
          = (-1, { st with num_queries := st.num_queries + 1 }, buf)) := by
  have hmiss : lookup_precheck st d b buf ≠ -1 →
      (∀ es, st.cache = some es → ∀ p ∈ es, ¬ (p.disk_num = d ∧ p.block_num = b)) →
      cache_lookup st d b buf
        = (-1, { st with num_queries := st.num_queries + 1 }, buf) := by
    intro h hm
    cases hc : st.cache with
    | none => simp [lookup_precheck, hc] at h
    | some es =>
      cases buf with
      | none => simp [lookup_precheck, hc] at h
      | some b0 =>
        simp only [cache_lookup, if_neg h, hc, lookup_scan_none d b b0 es (hm es hc)]
  refine ⟨(lookup_precheck_values st d b buf).2, ?_, hmiss, ?_⟩
  · intro h
    simp [cache_lookup, h]
  · intro hr h hkey hnv
    apply hmiss h
    intro es hes p hp
    rw [hes] at hnv
    simp only [Option.getD_some] at hnv
    cases hv : p.valid with
    | true => exact has_valid_key_false d b es hnv p hp hv
    | false =>
      obtain ⟨z1, z2⟩ := cache_reachable_free_keys st hr es hes p hp hv
      intro hk
      rw [z1, z2] at hk
      rcases hkey with h0 | h0
      · exact h0 hk.1.symm
      · exact h0 hk.2.symm

/-- Witness of the amended C19: a disk index out of range, and two misses, of
the keys (1, 2) and (2, 0), in a cache that holds block (1, 1) only. -/
theorem lookup_failure_results_witness :
    lookup_precheck one_cached 16 2 (some zero_block) = -1
    ∧ cache_lookup one_cached 16 2 (some zero_block) = (-1, one_cached, some zero_block)
    ∧ lookup_precheck one_cached 1 2 (some zero_block) ≠ -1
    ∧ has_valid_key 1 2 (one_cached.cache.getD []) = false
    ∧ cache_lookup one_cached 1 2 (some zero_block)
        = (-1, { one_cached with num_queries := one_cached.num_queries + 1 }, some zero_block)
    ∧ (∀ es, one_cached.cache = some es → ∀ p ∈ es, ¬ (p.disk_num = 2 ∧ p.block_num = 0))
    ∧ cache_lookup one_cached 2 0 (some zero_block)
        = (-1, { one_cached with num_queries := one_cached.num_queries + 1 }, some zero_block) :=
  have hno : ∀ es, one_cached.cache = some es →
      ∀ p ∈ es, ¬ (p.disk_num = 2 ∧ p.block_num = 0) := by
    intro es h p hp
    have e : one_cached.cache = some [entry one_cached 0, entry one_cached 1] := rfl
    rw [e] at h
    injection h with h
    subst h
    rcases List.mem_cons.1 hp with h1 | h1
    · subst h1; decide
    · rcases List.mem_cons.1 h1 with h2 | h2
      · subst h2; decide
      · simp at h2
  ⟨by decide,
   (lookup_failure_results one_cached 16 2 (some zero_block)).2.1 (by decide),
   by decide, by decide,
   (lookup_failure_results one_cached 1 2 (some zero_block)).2.2.2 one_cached_reachable
     (by decide) (by decide) (by decide),
   hno,
   (lookup_failure_results one_cached 2 0 (some zero_block)).2.2.1 (by decide) hno⟩

/-- C20 (valid entries form a prefix). In every state reached from a successful
`cache_create` by `cache_lookup`, `cache_insert` and `cache_update` calls, every
entry in front of a valid entry is valid; so entry 0 is invalid exactly when
no entry is valid, and for in-range indices and a present buffer
`lookup_precheck` fails exactly when no entry is valid. -/
theorem valid_entries_in_front (st : State) (h : cache_reachable st)
    (es : List cache_entry_t) (hc : st.cache = some es) :
    (∀ (i j : Nat) (p q : cache_entry_t), j < i → es[i]? = some p → es[j]? = some q →
        p.valid = true → q.valid = true)
    ∧ ((es.headD calloc_entry).valid = false ↔ ∀ p ∈ es, p.valid = false)
    ∧ (∀ (d b : Int) (buf : Block), 0 ≤ d → d < 16 → 0 ≤ b → b < 256 →
        (lookup_precheck st d b (some buf) = -1 ↔ ∀ p ∈ es, p.valid = false)) := by
  obtain ⟨c1, e1, _, hvp⟩ := cache_reachable_inv st h
  rw [hc] at e1
  injection e1 with e1
  subst e1
  have hhead : (es.headD calloc_entry).valid = false ↔ ∀ p ∈ es, p.valid = false := by
    cases es with
    | nil => simp [calloc_entry]
    | cons q rest =>
      unfold valid_front at hvp
      rw [List.pairwise_cons] at hvp
      constructor
      · intro hq p hp
        rcases List.mem_cons.1 hp with hp | hp
        · subst hp; exact hq
        · cases hv : p.valid with
          | false => rfl
          | true =>
            have := hvp.1 p hp hv
            simp only [List.headD_cons] at hq
            rw [hq] at this
            exact absurd this (by decide)
      · intro hall
        exact hall q (by simp)
  refine ⟨?_, hhead, ?_⟩
  · intro i j p q hji hp hq vp
    unfold valid_front at hvp
    rw [List.pairwise_iff_getElem] at hvp
    obtain ⟨hi, ei⟩ := List.getElem?_eq_some.1 hp
    obtain ⟨hj, ej⟩ := List.getElem?_eq_some.1 hq
    have := hvp j i hj hi hji
    rw [ei, ej] at this
    exact this vp
  · intro d b buf hd1 hd2 hb1 hb2
    rw [← hhead]
    have n1 : ¬ (d < 0 ∨ d ≥ ((16 : Nat) : Int)) := by omega
    have n2 : ¬ (b < 0 ∨ b ≥ ((256 : Nat) : Int)) := by omega
    simp only [lookup_precheck, hc, JBOD_NUM_DISKS, JBOD_BLOCK_SIZE, if_neg n1, if_neg n2]
    by_cases hv : (es.headD calloc_entry).valid = false
    · simp [hv]
    · simp [hv]

/-- Witness of C20: a cache of two entries holding one block. -/
theorem valid_entries_in_front_witness :
    cache_reachable one_cached
    ∧ ((entry one_cached 0).valid = false ↔ ∀ p ∈ one_cached.cache.getD [], p.valid = false) :=
  ⟨one_cached_reachable,
   (valid_entries_in_front one_cached one_cached_reachable (one_cached.cache.getD [])
      rfl).2.1⟩

/-- C21 (copies stay in bounds). On a mounted session, for a present buffer,
`1 <= len <= 2048` and `addr + len <= D * S`, take any touched block, of linear
index `k`. Its sub-range satisfies `0 <= start <= end <= K - 1`. For
`mdadm_read`, and for `mdadm_write` when writing is permitted, the call is the
iteration of block `k` run on the loop state `before_block` followed by the
iterations of the later blocks, and with the running offset of that state:
`offset + (end - start + 1) <= len`; the copied bytes lie inside the caller's
`len` bytes (`offset + sub_len <= len`) and inside the K bytes of the block
buffer (`start + sub_len <= K`); and the 16-bit update of the offset does not
wrap (`advance` is the plain sum). -/
theorem copies_stay_in_bounds (st : State) (addr len : Nat) (b : Buf) (k : Nat)
    (hm : st.is_mounted ≠ 0) (h1 : 1 ≤ len) (h2 : len ≤ 2048)
    (h3 : addr + len ≤ JBOD_NUM_DISKS * JBOD_DISK_SIZE)
    (hk1 : addr / JBOD_BLOCK_SIZE ≤ k) (hk2 : k ≤ (addr + len - 1) / JBOD_BLOCK_SIZE) :
    (0 ≤ start_cpy (span_of addr len) (k / JBOD_NUM_BLOCKS_PER_DISK) (k % JBOD_NUM_BLOCKS_PER_DISK)
      ∧ start_cpy (span_of addr len) (k / JBOD_NUM_BLOCKS_PER_DISK) (k % JBOD_NUM_BLOCKS_PER_DISK)
          ≤ end_cpy (span_of addr len) (k / JBOD_NUM_BLOCKS_PER_DISK)
              (k % JBOD_NUM_BLOCKS_PER_DISK)
      ∧ end_cpy (span_of addr len) (k / JBOD_NUM_BLOCKS_PER_DISK) (k % JBOD_NUM_BLOCKS_PER_DISK)
          ≤ (JBOD_BLOCK_SIZE : Int) - 1)
    ∧ (mdadm_read st addr len (some b)
          = (let y := List.foldl (lin_step (read_block (span_of addr len)) (addr / JBOD_BLOCK_SIZE))
                (lin_step (read_block (span_of addr len)) (addr / JBOD_BLOCK_SIZE)
                  (before_block (read_block (span_of addr len)) addr k
                    { st := st, buf := b, offset := 0 }) k)
                (List.range' (k + 1) ((addr + len - 1) / JBOD_BLOCK_SIZE - k))
             ((y.offset : Int), y.st, some y.buf))
        ∧ ((before_block (read_block (span_of addr len)) addr k
              { st := st, buf := b, offset := 0 }).offset : Int)
            + (end_cpy (span_of addr len) (k / JBOD_NUM_BLOCKS_PER_DISK)
                  (k % JBOD_NUM_BLOCKS_PER_DISK)
                - start_cpy (span_of addr len) (k / JBOD_NUM_BLOCKS_PER_DISK)
                  (k % JBOD_NUM_BLOCKS_PER_DISK) + 1) ≤ (len : Int)
        ∧ (before_block (read_block (span_of addr len)) addr k
              { st := st, buf := b, offset := 0 }).offset
            + sub_len (span_of addr len) (k / JBOD_NUM_BLOCKS_PER_DISK)
                (k % JBOD_NUM_BLOCKS_PER_DISK) ≤ len
        ∧ (start_cpy (span_of addr len) (k / JBOD_NUM_BLOCKS_PER_DISK)
              (k % JBOD_NUM_BLOCKS_PER_DISK)).toNat
            + sub_len (span_of addr len) (k / JBOD_NUM_BLOCKS_PER_DISK)
                (k % JBOD_NUM_BLOCKS_PER_DISK) ≤ JBOD_BLOCK_SIZE
        ∧ advance (span_of addr len) (k / JBOD_NUM_BLOCKS_PER_DISK) (k % JBOD_NUM_BLOCKS_PER_DISK)
              (before_block (read_block (span_of addr len)) addr k
                { st := st, buf := b, offset := 0 }).offset
            = (before_block (read_block (span_of addr len)) addr k
                { st := st, buf := b, offset := 0 }).offset
              + sub_len (span_of addr len) (k / JBOD_NUM_BLOCKS_PER_DISK)
                  (k % JBOD_NUM_BLOCKS_PER_DISK))
    ∧ (st.is_written ≠ 0 →
        mdadm_write st addr len (some b)
          = (let y := List.foldl (lin_step (write_block (span_of addr len)) (addr / JBOD_BLOCK_SIZE))
                (lin_step (write_block (span_of addr len)) (addr / JBOD_BLOCK_SIZE)
                  (before_block (write_block (span_of addr len)) addr k
                    { st := st, buf := b, offset := 0 }) k)
                (List.range' (k + 1) ((addr + len - 1) / JBOD_BLOCK_SIZE - k))
             ((y.offset : Int), y.st))
        ∧ ((before_block (write_block (span_of addr len)) addr k
              { st := st, buf := b, offset := 0 }).offset : Int)
            + (end_cpy (span_of addr len) (k / JBOD_NUM_BLOCKS_PER_DISK)
                  (k % JBOD_NUM_BLOCKS_PER_DISK)
                - start_cpy (span_of addr len) (k / JBOD_NUM_BLOCKS_PER_DISK)
                  (k % JBOD_NUM_BLOCKS_PER_DISK) + 1) ≤ (len : Int)
        ∧ (before_block (write_block (span_of addr len)) addr k
              { st := st, buf := b, offset := 0 }).offset
            + sub_len (span_of addr len) (k / JBOD_NUM_BLOCKS_PER_DISK)
                (k % JBOD_NUM_BLOCKS_PER_DISK) ≤ len
        ∧ (start_cpy (span_of addr len) (k / JBOD_NUM_BLOCKS_PER_DISK)
              (k % JBOD_NUM_BLOCKS_PER_DISK)).toNat
            + sub_len (span_of addr len) (k / JBOD_NUM_BLOCKS_PER_DISK)
                (k % JBOD_NUM_BLOCKS_PER_DISK) ≤ JBOD_BLOCK_SIZE
        ∧ advance (span_of addr len) (k / JBOD_NUM_BLOCKS_PER_DISK) (k % JBOD_NUM_BLOCKS_PER_DISK)
              (before_block (write_block (span_of addr len)) addr k
                { st := st, buf := b, offset := 0 }).offset
            = (before_block (write_block (span_of addr len)) addr k
                { st := st, buf := b, offset := 0 }).offset
              + sub_len (span_of addr len) (k / JBOD_NUM_BLOCKS_PER_DISK)
                  (k % JBOD_NUM_BLOCKS_PER_DISK)) := by
  have h3a : addr + len ≤ 1048576 := h3
  have hk1a : addr / 256 ≤ k := hk1
  have hk2a : k ≤ (addr + len - 1) / 256 := hk2
  obtain ⟨b1, b2, b3, _⟩ := sub_range_bounds addr len k h1 h2 h3a hk1a hk2a
  have hsplit : ∀ (body : Nat → Nat → Loop → Loop) (x0 : Loop),
      List.foldl (lin_step body (addr / 256)) x0
          (List.range' (addr / 256) ((addr + len - 1) / 256 + 1 - addr / 256))
        = List.foldl (lin_step body (addr / 256))
            (lin_step body (addr / 256) (before_block body addr k x0) k)
            (List.range' (k + 1) ((addr + len - 1) / 256 - k)) := by
    intro body x0
    rw [foldl_range_split _ x0 (addr / 256) (k - addr / 256) _ (by omega)]
    have e1 : addr / 256 + (k - addr / 256) = k := by omega
    have e2 : (addr + len - 1) / 256 + 1 - addr / 256 - (k - addr / 256) - 1
        = (addr + len - 1) / 256 - k := by omega
    rw [e1, e2]
    rfl
  have b4 : end_cpy (span_of addr len) (k / 256) (k % 256) ≤ ((256 : Nat) : Int) - 1 := by
    omega
  refine ⟨⟨b1, b2, b4⟩, ⟨?_, ?_⟩, ?_⟩
  · rw [mdadm_read_eq st addr len b hm h1 h2 h3a, hsplit]
    rfl
  · exact block_copy_bounds (read_block (span_of addr len)) addr len k _
      (read_block_offset _) h1 h2 h3a rfl hk1a hk2a
  · intro hw
    refine ⟨?_, ?_⟩
    · rw [mdadm_write_eq st addr len b hm hw h1 h2 h3a, hsplit]
      rfl
    · exact block_copy_bounds (write_block (span_of addr len)) addr len k _
        (write_block_offset _) h1 h2 h3a rfl hk1a hk2a

/-- Witness of C21: the second block (disk 1, block 0) of 300 bytes written or
read from address `S - 50`. -/
theorem copies_stay_in_bounds_witness :
    demo_ready.is_mounted ≠ 0 ∧ 1 ≤ 300 ∧ 300 ≤ 2048
    ∧ 65486 + 300 ≤ JBOD_NUM_DISKS * JBOD_DISK_SIZE
    ∧ 65486 / JBOD_BLOCK_SIZE ≤ 256 ∧ 256 ≤ (65486 + 300 - 1) / JBOD_BLOCK_SIZE
    ∧ 0 ≤ start_cpy (span_of 65486 300) (256 / JBOD_NUM_BLOCKS_PER_DISK)
            (256 % JBOD_NUM_BLOCKS_PER_DISK)
    ∧ start_cpy (span_of 65486 300) (256 / JBOD_NUM_BLOCKS_PER_DISK)
          (256 % JBOD_NUM_BLOCKS_PER_DISK)
        ≤ end_cpy (span_of 65486 300) (256 / JBOD_NUM_BLOCKS_PER_DISK)
            (256 % JBOD_NUM_BLOCKS_PER_DISK)
    ∧ end_cpy (span_of 65486 300) (256 / JBOD_NUM_BLOCKS_PER_DISK)
          (256 % JBOD_NUM_BLOCKS_PER_DISK) ≤ (JBOD_BLOCK_SIZE : Int) - 1 :=
  ⟨by decide, by decide, by decide, by decide, by decide, by decide,
   (copies_stay_in_bounds demo_ready 65486 300 zero_block 256 (by decide) (by decide)
      (by decide) (by decide) (by decide) (by decide)).1⟩

end Mdadm
